import Mathlib

/-!
Verification of the newapi-model-check gateway against its specification.

The development shallowly embeds the TypeScript sources of the repository:

* `src/lib/detection/strategies.ts` — endpoint selection per model name;
* `src/lib/detection/detector.ts` — response-body error detection,
  thinking-block stripping, response-content extraction, and the
  classification performed by `executeDetection`;
* `src/lib/proxy/index.ts` — `findChannelByModel`,
  `getAllModelsWithChannels`, `normalizeBaseUrl`;
* `src/app/v1/chat/completions/route.ts` — the chat-completions proxy
  handler (URL construction and body rewriting);
* `src/app/v1/models/route.ts` — the `/v1/models` listing;
* `src/app/api/detect/route.ts` — the detection trigger control flow;
* `src/app/api/scheduler/config/route.ts` — scheduler-config validation;
* `src/lib/queue/queue.ts` — `isQueueRunning` and `pauseAndDrainQueue`.

JavaScript strings are modelled as `List Char` (named `Str`); JSON values
as the inductive `Json` with integer numerics.  Store queries are
modelled as functions over explicit row lists, mirroring the Prisma
`where` clauses built by the source.
-/

set_option maxRecDepth 4096

/-- Strings of the embedded program: JavaScript strings as char lists. -/
abbrev Str := List Char

/-- Conversion from Lean string literals to embedded strings. -/
def str (s : String) : Str := s.toList

/-- JavaScript `String.prototype.includes`: substring test. -/
def jsIncludes (s pat : Str) : Bool :=
  match s with
  | [] => pat.isPrefixOf ([] : Str)
  | _ :: rest => pat.isPrefixOf s || jsIncludes rest pat

/-- JavaScript `String.prototype.toLowerCase` (ASCII-faithful). -/
def jsLower (s : Str) : Str := s.map Char.toLower

/-- JavaScript `String.prototype.endsWith`. -/
def jsEndsWith (s pat : Str) : Bool := pat.reverse.isPrefixOf s.reverse

/-- Endpoint types of the `EndpointType` Prisma enum. -/
inductive EndpointType
  | CHAT
  | CLAUDE
  | GEMINI
  | CODEX
  | IMAGE
deriving DecidableEq, Repr

/-- Probe statuses of the `CheckStatus` Prisma enum. -/
inductive CheckStatus
  | SUCCESS
  | FAIL
deriving DecidableEq, Repr

/-- Test of the regular expression `^o[134](-|$)` from
`detectCliEndpointType` (strategies.ts line 32), applied to the
already-lowercased name. -/
def o134Test (name : Str) : Bool :=
  match name with
  | 'o' :: d :: rest =>
      (d = '1' || d = '3' || d = '4') && (rest.isEmpty || rest.headI = '-')
  | _ => false

/-- Embedding of `detectCliEndpointType` (strategies.ts lines 14–39):
lowercase the name, then test `includes("claude")`,
`includes("gemini")`, and the Responses-API regexes in order. -/
def detectCliEndpointType (modelName : Str) : Option EndpointType :=
  let name := jsLower modelName
  if jsIncludes name (str "claude") then some EndpointType.CLAUDE
  else if jsIncludes name (str "gemini") then some EndpointType.GEMINI
  else if jsIncludes name (str "gpt-4o") || jsIncludes name (str "gpt-5")
      || o134Test name then some EndpointType.CODEX
  else none

/-- Embedding of `getEndpointsToTest` (strategies.ts lines 45–54):
always CHAT, plus the CLI endpoint when one is detected. -/
def getEndpointsToTest (modelName : Str) : List EndpointType :=
  match detectCliEndpointType modelName with
  | some cli => [EndpointType.CHAT, cli]
  | none => [EndpointType.CHAT]

/-- Endpoint set demanded by claim C4 read literally: `claude*` and
`gemini*` are glob patterns anchored at the start of the
(case-insensitively compared) name, while `/gpt-4o/`, `/gpt-5/` and
`/^o[134](-|$)/` are the regexes of the source. -/
def endpointsPerClaimC4 (modelName : Str) : List EndpointType :=
  let name := jsLower modelName
  if (str "claude").isPrefixOf name then [EndpointType.CHAT, EndpointType.CLAUDE]
  else if (str "gemini").isPrefixOf name then [EndpointType.CHAT, EndpointType.GEMINI]
  else if jsIncludes name (str "gpt-4o") || jsIncludes name (str "gpt-5")
      || o134Test name then [EndpointType.CHAT, EndpointType.CODEX]
  else [EndpointType.CHAT]

example : getEndpointsToTest (str "claude-3-opus") = [EndpointType.CHAT, EndpointType.CLAUDE] := by decide
example : getEndpointsToTest (str "GPT-4o-mini") = [EndpointType.CHAT, EndpointType.CODEX] := by decide
example : getEndpointsToTest (str "o1-preview") = [EndpointType.CHAT, EndpointType.CODEX] := by decide
example : getEndpointsToTest (str "o2") = [EndpointType.CHAT] := by decide
example : getEndpointsToTest (str "gemini-claude") = [EndpointType.CHAT, EndpointType.CLAUDE] := by decide
example : endpointsPerClaimC4 (str "gemini-claude") = [EndpointType.CHAT, EndpointType.GEMINI] := by decide

/-! ## JSON values -/

/-- JSON values as decoded by `await response.json()`.  Numerics are
modelled as integers, which covers every numeric test the sources
perform (`code !== 0`, `.length`). -/
inductive Json
  | null
  | bool (b : Bool)
  | num (n : Int)
  | jstr (s : Str)
  | arr (elems : List Json)
  | obj (fields : List (Str × Json))

/-- Property lookup on an object field list (first binding wins). -/
def fieldGet : List (Str × Json) → Str → Option Json
  | [], _ => none
  | (k, v) :: rest, key => if k = key then some v else fieldGet rest key

/-- JavaScript property access `j.k`: defined on objects, `undefined`
(none) on every other value. -/
def jGet (j : Json) (key : Str) : Option Json :=
  match j with
  | Json.obj fields => fieldGet fields key
  | _ => none

/-- JavaScript truthiness of a JSON value. -/
def truthy : Json → Bool
  | Json.null => false
  | Json.bool b => b
  | Json.num n => n ≠ 0
  | Json.jstr s => !s.isEmpty
  | Json.arr _ => true
  | Json.obj _ => true

/-- JavaScript `.length` property of a JSON value: string length or
array length; `undefined` (none) otherwise. -/
def jsLengthProp : Json → Option Nat
  | Json.jstr s => some s.length
  | Json.arr l => some l.length
  | _ => none

/-- Decimal digits of a natural number with explicit fuel (the fuel is
always sufficient when it exceeds the digit count). -/
def natToStrAux : Nat → Nat → Str
  | 0, _ => []
  | Nat.succ fuel, n =>
      if n < 10 then [Char.ofNat (48 + n)]
      else natToStrAux fuel (n / 10) ++ [Char.ofNat (48 + n % 10)]

/-- Decimal digits of a natural number, mirroring JavaScript number
printing for non-negative integers. -/
def natToStr (n : Nat) : Str := natToStrAux (n + 1) n

/-- Decimal rendering of an integer, mirroring JavaScript template
interpolation of an integral number. -/
def intToStr (n : Int) : Str :=
  if n < 0 then '-' :: natToStr n.natAbs else natToStr n.natAbs

mutual

/-- Simple JSON serialization standing in for `JSON.stringify`.  Only
reachability of this branch matters to the claims (the sources slice its
output to 500 characters for an error message); escaping is limited to
quotes and backslashes. -/
def jsonStringify : Json → Str
  | Json.null => str "null"
  | Json.bool true => str "true"
  | Json.bool false => str "false"
  | Json.num n => intToStr n
  | Json.jstr s => '"' :: s ++ ['"']
  | Json.arr l => '[' :: jsonStringifyElems l ++ [']']
  | Json.obj fs => "\x7b".toList ++ jsonStringifyFields fs ++ "\x7d".toList

/-- Comma-separated serialization of array elements. -/
def jsonStringifyElems : List Json → Str
  | [] => []
  | [j] => jsonStringify j
  | j :: rest => jsonStringify j ++ ',' :: jsonStringifyElems rest

/-- Comma-separated serialization of object fields. -/
def jsonStringifyFields : List (Str × Json) → Str
  | [] => []
  | [(k, v)] => '"' :: k ++ '"' :: ':' :: jsonStringify v
  | (k, v) :: rest => '"' :: k ++ '"' :: ':' :: jsonStringify v ++ ',' :: jsonStringifyFields rest

end

example : natToStr 10450 = str "10450" := by decide
example : truthy (Json.jstr []) = false := by decide

/-! ## Thinking-block stripping (detector.ts lines 78–85) -/

/-- Characters removed by JavaScript `String.prototype.trim` (the
common whitespace set). -/
def isJsWs (c : Char) : Bool :=
  c = ' ' || c = '\t' || c = '\n' || c = '\r' || c = '\x0b' || c = '\x0c'

/-- JavaScript `String.prototype.trim`. -/
def trimStr (s : Str) : Str :=
  ((s.dropWhile isJsWs).reverse.dropWhile isJsWs).reverse

/-- The opening sentinel of a thinking block. -/
def thinkOpenTag : Str := str "<think>"

/-- The closing sentinel of a thinking block. -/
def thinkCloseTag : Str := str "</think>"

/-- Case-insensitive prefix test (the regexes carry the `i` flag and
the tags are lowercase). -/
def isPrefixCI (pat s : Str) : Bool := pat.isPrefixOf (jsLower s)

/-- Scan for the first case-insensitive occurrence of `</think>` and
return the remainder after it, as the non-greedy regex
`<think>[\s\S]*?<\/think>` does once its opening tag has matched. -/
def afterThinkClose : Str → Option Str
  | [] => none
  | c :: rest =>
      if isPrefixCI thinkCloseTag (c :: rest) then some ((c :: rest).drop 8)
      else afterThinkClose rest

theorem afterThinkClose_length :
    ∀ s r, afterThinkClose s = some r → r.length < s.length := by
  intro s
  induction s with
  | nil => intro r h; simp [afterThinkClose] at h
  | cons c rest ih =>
      intro r h
      by_cases hp : isPrefixCI thinkCloseTag (c :: rest) = true
      · simp [afterThinkClose, hp] at h
        subst h
        simp [List.length_drop]
        omega
      · simp [afterThinkClose, hp] at h
        have := ih r h
        simp only [List.length_cons]
        omega

/-- Global replacement of `/<think>[\s\S]*?<\/think>/gi` by the empty
string: at each position, a complete (shortest) thinking block is
deleted and scanning resumes after it; otherwise the character is kept
and scanning advances one position. -/
def replaceThinkClosed (s : Str) : Str :=
  match s with
  | [] => []
  | c :: rest =>
      if isPrefixCI thinkOpenTag (c :: rest) then
        match h : afterThinkClose ((c :: rest).drop 7) with
        | some rest2 => replaceThinkClosed rest2
        | none => c :: replaceThinkClosed rest
      else c :: replaceThinkClosed rest
termination_by s.length
decreasing_by
  · have h1 := afterThinkClose_length _ _ h
    simp only [List.length_drop, List.length_cons] at h1 ⊢
    omega
  · simp only [List.length_cons]; omega
  · simp only [List.length_cons]; omega

/-- Global replacement of the unclosed-tag regex `/<think>[\s\S]*/gi`
by the empty string: everything from the first case-insensitive
occurrence of `<think>` to the end is deleted. -/
def replaceThinkOpen : Str → Str
  | [] => []
  | c :: rest =>
      if isPrefixCI thinkOpenTag (c :: rest) then []
      else c :: replaceThinkOpen rest

/-- Embedding of `stripThinkingBlocks` (detector.ts lines 78–85):
strip complete blocks, then an unclosed block, trimming after each
pass; if nothing remains, return the original text. -/
def stripThinkingBlocks (text : Str) : Str :=
  let stripped := trimStr (replaceThinkClosed text)
  let stripped2 := trimStr (replaceThinkOpen stripped)
  if stripped2.isEmpty then text else stripped2

/-! ## Response-body error detection (detector.ts lines 32–72) -/

/-- Pattern 1 of `checkResponseBodyForError`: a truthy `error` field
that is a string (necessarily non-empty) or has JavaScript type
"object" (a JSON object or array).  A truthy `error` of any other type
returns nothing in the source and falls through to the next pattern,
matching `none` here. -/
def pattern1 (fs : List (Str × Json)) : Option Str :=
  match fieldGet fs (str "error") with
  | some (Json.jstr s) => if s.isEmpty then none else some s
  | some (Json.obj efs) =>
      match fieldGet efs (str "message") with
      | some (Json.jstr m) => some m
      | _ => some ((jsonStringify (Json.obj efs)).take 500)
  | some (Json.arr l) => some ((jsonStringify (Json.arr l)).take 500)
  | _ => none

/-- Pattern 2: `success === false` together with a string `message`. -/
def pattern2 (fs : List (Str × Json)) : Option Str :=
  match fieldGet fs (str "success"), fieldGet fs (str "message") with
  | some (Json.bool false), some (Json.jstr m) => some m
  | _, _ => none

/-- Pattern 3: a numeric non-zero `code` with a string `message`,
formatted `[code] message`. -/
def pattern3 (fs : List (Str × Json)) : Option Str :=
  match fieldGet fs (str "code"), fieldGet fs (str "message") with
  | some (Json.num n), some (Json.jstr m) =>
      if n = 0 then none else some ('[' :: (intToStr n ++ ']' :: ' ' :: m))
  | _, _ => none

/-- Pattern 4: `status` equal to "error", "fail" or "failed"; the
string `message` if present, otherwise `Status: <status>`. -/
def pattern4 (fs : List (Str × Json)) : Option Str :=
  match fieldGet fs (str "status") with
  | some (Json.jstr s) =>
      if s = str "error" || s = str "fail" || s = str "failed" then
        match fieldGet fs (str "message") with
        | some (Json.jstr m) => some m
        | _ => some (str "Status: " ++ s)
      else none
  | _ => none

/-- Embedding of `checkResponseBodyForError` (detector.ts lines
32–72).  A JSON array passes the source's `typeof body === "object"`
guard but owns none of the four fields, so it falls through to `null`
exactly as the non-object arm here. -/
def checkResponseBodyForError (body : Json) : Option Str :=
  match body with
  | Json.obj fs =>
      match pattern1 fs with
      | some m => some m
      | none =>
          match pattern2 fs with
          | some m => some m
          | none =>
              match pattern3 fs with
              | some m => some m
              | none => pattern4 fs
  | _ => none

/-- Clause (1) of claim C5: `error` is a non-empty string or of object
type. -/
def specClause1 (fs : List (Str × Json)) : Bool :=
  match fieldGet fs (str "error") with
  | some (Json.jstr s) => !s.isEmpty
  | some (Json.obj _) => true
  | some (Json.arr _) => true
  | _ => false

/-- Clause (2) of claim C5: `success == false` with a string
message. -/
def specClause2 (fs : List (Str × Json)) : Bool :=
  match fieldGet fs (str "success"), fieldGet fs (str "message") with
  | some (Json.bool false), some (Json.jstr _) => true
  | _, _ => false

/-- Clause (3) of claim C5: numeric `code ≠ 0` with a string
message. -/
def specClause3 (fs : List (Str × Json)) : Bool :=
  match fieldGet fs (str "code"), fieldGet fs (str "message") with
  | some (Json.num n), some (Json.jstr _) => n ≠ 0
  | _, _ => false

/-- Clause (4) of claim C5: `status` in error/fail/failed. -/
def specClause4 (fs : List (Str × Json)) : Bool :=
  match fieldGet fs (str "status") with
  | some (Json.jstr s) => s = str "error" || s = str "fail" || s = str "failed"
  | _ => false

/-- The four error patterns as enumerated by claim C5 (and §4.B of the
spec). -/
def errorPatternSpec (body : Json) : Bool :=
  match body with
  | Json.obj fs => specClause1 fs || specClause2 fs || specClause3 fs || specClause4 fs
  | _ => false

example :
    checkResponseBodyForError (Json.obj [(str "error", Json.jstr (str "quota"))])
      = some (str "quota") := by decide
example :
    checkResponseBodyForError (Json.obj [(str "code", Json.num 7), (str "message", Json.jstr (str "no"))])
      = some (str "[7] no") := by decide
example :
    checkResponseBodyForError (Json.obj [(str "error", Json.num 5)]) = none := by decide

/-! ## Response-content extraction (detector.ts lines 90–261) -/

/-- Optional indexing `x?.[0]` on an optional JSON value. -/
def optIndex0 (o : Option Json) : Option Json :=
  match o with
  | some (Json.arr (x :: _)) => some x
  | _ => none

/-- The test `typeof o?.k === "string" && o.k.length > 0` used
throughout `extractResponseContent`. -/
def strProp (o : Option Json) (k : Str) : Option Str :=
  match o.bind (fun j => jGet j k) with
  | some (Json.jstr s) => if s.isEmpty then none else some s
  | _ => none

/-- CHAT branch of `extractResponseContent` (detector.ts lines
98–139): content, reasoning_content, refusal, delta.content, legacy
text, in that order.  The source's `if (msg)` truthiness guard is
semantically absorbed by the per-field lookups: a falsy or non-object
`message` makes every field lookup yield undefined. -/
def chatExtract (body : Json) : Option Str :=
  let c0 := optIndex0 (jGet body (str "choices"))
  let msg := c0.bind (fun j => jGet j (str "message"))
  match strProp msg (str "content") with
  | some s => some ((stripThinkingBlocks s).take 500)
  | none =>
  match strProp msg (str "reasoning_content") with
  | some s => some ((stripThinkingBlocks s).take 500)
  | none =>
  match strProp msg (str "refusal") with
  | some s => some (s.take 500)
  | none =>
  match strProp (c0.bind (fun j => jGet j (str "delta"))) (str "content") with
  | some s => some ((stripThinkingBlocks s).take 500)
  | none =>
  match strProp c0 (str "text") with
  | some s => some ((stripThinkingBlocks s).take 500)
  | none => none

/-- Fallback of the CLAUDE branch: `content[0]?.text` whenever it is a
string (empty allowed). -/
def claudeFallback (blocks : List Json) : Option Str :=
  match blocks.head?.bind (fun b => jGet b (str "text")) with
  | some (Json.jstr s) => some (s.take 500)
  | _ => none

/-- CLAUDE branch of `extractResponseContent` (detector.ts lines
140–158): first block with `type == "text"` and string text; an empty
text is falsy and falls back to `content[0]?.text`. -/
def claudeExtract (body : Json) : Option Str :=
  match jGet body (str "content") with
  | some (Json.arr blocks) =>
      match blocks.find? (fun b =>
          match jGet b (str "type"), jGet b (str "text") with
          | some (Json.jstr t), some (Json.jstr _) => t = str "text"
          | _, _ => false) with
      | some b =>
          match jGet b (str "text") with
          | some (Json.jstr s) => if s.isEmpty then claudeFallback blocks else some (s.take 500)
          | _ => claudeFallback blocks
      | none => claudeFallback blocks
  | _ => none

/-- Fallback of the GEMINI branch: first part with non-empty string
text, regardless of its `thought` flag. -/
def geminiFallback (parts : List Json) : Option Str :=
  match parts.find? (fun p =>
      match jGet p (str "text") with
      | some (Json.jstr s) => !s.isEmpty
      | _ => false) with
  | some p =>
      match jGet p (str "text") with
      | some (Json.jstr s) => some (s.take 500)
      | _ => none
  | none => none

/-- GEMINI branch of `extractResponseContent` (detector.ts lines
159–181): first non-thought part with non-empty string text, then the
fallback. -/
def geminiExtract (body : Json) : Option Str :=
  match ((optIndex0 (jGet body (str "candidates"))).bind
      (fun c => jGet c (str "content"))).bind (fun c => jGet c (str "parts")) with
  | some (Json.arr parts) =>
      match parts.find? (fun p =>
          match jGet p (str "text") with
          | some (Json.jstr s) => !s.isEmpty && !truthy ((jGet p (str "thought")).getD Json.null)
          | _ => false) with
      | some p =>
          match jGet p (str "text") with
          | some (Json.jstr s) => some (s.take 500)
          | _ => geminiFallback parts
      | none => geminiFallback parts
  | _ => none

/-- Per-item content extraction of the CODEX branch: a content entry
with `type == "output_text"` and truthy text. -/
def codexFromContent (item : Json) : Option Str :=
  match jGet item (str "content") with
  | some (Json.arr cs) =>
      match cs.find? (fun c =>
          match jGet c (str "type"), jGet c (str "text") with
          | some (Json.jstr t), some (Json.jstr _) => t = str "output_text"
          | _, _ => false) with
      | some c =>
          match jGet c (str "text") with
          | some (Json.jstr s) => if s.isEmpty then none else some (s.take 500)
          | _ => none
      | none => none
  | _ => none

/-- Loop body of the CODEX branch (detector.ts lines 192–208): per
output item, the content extraction above, else the item's own
non-empty string text, else the next item. -/
def codexLoop : List Json → Option Str
  | [] => none
  | item :: rest =>
      match codexFromContent item with
      | some r => some r
      | none =>
          match jGet item (str "text") with
          | some (Json.jstr s) => if s.isEmpty then codexLoop rest else some (s.take 500)
          | _ => codexLoop rest

/-- CODEX branch of `extractResponseContent`. -/
def codexExtract (body : Json) : Option Str :=
  match jGet body (str "output") with
  | some (Json.arr items) => codexLoop items
  | _ => none

/-- Rendering of `${v.length}` for the base64 info string: defined for
strings and arrays, the literal `undefined` otherwise. -/
def lengthPropStr (v : Json) : Str :=
  match jsLengthProp v with
  | some n => natToStr n
  | none => str "undefined"

/-- Terminal return of the IMAGE branch. -/
def imageDone : Except Unit (Option Str) :=
  Except.ok (some (str "[Image generated successfully]"))

/-- Third check of the IMAGE branch: a truthy `revised_prompt`.  A
truthy non-string value is modelled as the thrown `TypeError` of
`.slice` on it (`Except.error`), which the source catches and routes
to the last-resort block. -/
def imageRevised (first : Json) : Except Unit (Option Str) :=
  match jGet first (str "revised_prompt") with
  | some (Json.jstr s) =>
      if s.isEmpty then imageDone
      else Except.ok (some (str "[Image generated with prompt: " ++ s.take 100 ++ str "]"))
  | some v => if truthy v then Except.error () else imageDone
  | none => imageDone

/-- Second check of the IMAGE branch: a truthy `b64_json`; its
`.length` property never throws. -/
def imageB64 (first : Json) : Except Unit (Option Str) :=
  match jGet first (str "b64_json") with
  | some v =>
      if truthy v then
        Except.ok (some (str "[Image generated: base64 data, " ++ lengthPropStr v ++ str " chars]"))
      else imageRevised first
  | none => imageRevised first

/-- IMAGE branch of `extractResponseContent` (detector.ts lines
211–232), with `.slice` on a truthy non-string `url` modelled as a
thrown `TypeError`. -/
def imageExtract (body : Json) : Except Unit (Option Str) :=
  match jGet body (str "data") with
  | some (Json.arr (first :: _)) =>
      match jGet first (str "url") with
      | some (Json.jstr s) =>
          if s.isEmpty then imageB64 first
          else Except.ok (some (str "[Image URL: " ++ s.take 100 ++ str "...]"))
      | some v => if truthy v then Except.error () else imageB64 first
      | none => imageB64 first
  | _ => Except.ok none

/-- Per-endpoint primary extraction; `Except.ok none` is the `break`
that reaches the last-resort block, `Except.error` a thrown error
caught by the surrounding `try`. -/
def primaryExtract (body : Json) (ep : EndpointType) : Except Unit (Option Str) :=
  match ep with
  | EndpointType.CHAT => Except.ok (chatExtract body)
  | EndpointType.CLAUDE => Except.ok (claudeExtract body)
  | EndpointType.GEMINI => Except.ok (geminiExtract body)
  | EndpointType.CODEX => Except.ok (codexExtract body)
  | EndpointType.IMAGE => imageExtract body

/-- Alternative keys probed by the last-resort block. -/
def lastResortKeys : List Str :=
  [str "text", str "output", str "result", str "data", str "response",
   str "message", str "answer"]

/-- Key loop of the last-resort block (detector.ts lines 244–249). -/
def altLoop (body : Json) : List Str → Option Str
  | [] => none
  | k :: rest =>
      match jGet body k with
      | some (Json.jstr s) =>
          if s.isEmpty then altLoop body rest
          else some ((stripThinkingBlocks s).take 500)
      | _ => altLoop body rest

/-- The untruncated model-confirmation string of the last-resort
block. -/
def modelOkStr (s : Str) : Str := str "[response OK, model: " ++ s ++ str "]"

/-- Last-resort block of `extractResponseContent` (detector.ts lines
240–258): alternative string keys, then `body.model || body.id`
rendered as `[response OK, model: <m>]` when it is a string. -/
def lastResortExtract (body : Json) : Option Str :=
  match altLoop body lastResortKeys with
  | some r => some r
  | none =>
      let mv := match jGet body (str "model") with
        | some v => if truthy v then some v else jGet body (str "id")
        | none => jGet body (str "id")
      match mv with
      | some (Json.jstr s) => some (modelOkStr s)
      | _ => none

/-- Embedding of `extractResponseContent` (detector.ts lines 90–261):
the per-endpoint switch inside a `try`, then the last-resort block on
break or thrown error. -/
def extractResponseContent (body : Json) (ep : EndpointType) : Option Str :=
  match primaryExtract body ep with
  | Except.ok (some s) => some s
  | Except.ok none => lastResortExtract body
  | Except.error _ => lastResortExtract body

/-! ## Detection classification (detector.ts lines 266–371) -/

/-- Result record of one probe, as produced by `executeDetection`. -/
structure DetectionResult where
  status : CheckStatus
  statusCode : Option Nat
  errorMsg : Option Str
  responseContent : Option Str

/-- The `response.ok` predicate of fetch: HTTP status in [200, 299]. -/
def responseOk (statusCode : Nat) : Bool := 200 ≤ statusCode && statusCode ≤ 299

/-- Embedding of the response handling of `executeDetection`
(detector.ts lines 303–351).  `body` is the parsed JSON body (`none`
when parsing failed); `rawText` is the response text used for the
non-2xx error message. -/
def executeDetectionClassify (statusCode : Nat) (body : Option Json)
    (ep : EndpointType) (rawText : Str) : DetectionResult :=
  if responseOk statusCode then
    let responseContent := body.bind (fun b => extractResponseContent b ep)
    match body.bind checkResponseBodyForError with
    | some m =>
        { status := CheckStatus.FAIL, statusCode := some statusCode,
          errorMsg := some m, responseContent := none }
    | none =>
        { status := CheckStatus.SUCCESS, statusCode := some statusCode,
          errorMsg := none, responseContent := responseContent }
  else
    let errorMsg := if rawText.length > 500 then rawText.take 500 ++ str "..." else rawText
    { status := CheckStatus.FAIL, statusCode := some statusCode,
      errorMsg := some errorMsg, responseContent := none }

example :
    (executeDetectionClassify 200
      (some (Json.obj [(str "choices",
        Json.arr [Json.obj [(str "message",
          Json.obj [(str "content", Json.jstr (str "yes"))])]])]))
      EndpointType.CHAT []).status = CheckStatus.SUCCESS := by decide
example :
    (executeDetectionClassify 200
      (some (Json.obj [(str "error",
        Json.obj [(str "message", Json.jstr (str "quota exceeded"))])]))
      EndpointType.CHAT []).errorMsg = some (str "quota exceeded") := by decide

/-! ## Router and proxy (src/lib/proxy/index.ts) -/

/-- Channel row fields selected by `findChannelByModel` and
`getAllModelsWithChannels`. -/
structure Channel where
  id : Str
  name : Str
  baseUrl : Str
  apiKey : Str
  proxy : Option Str
  enabled : Bool
deriving DecidableEq

/-- Model row with its included channel and probe-log statuses, as the
Prisma queries of the proxy module materialize it. -/
structure ModelRow where
  id : Str
  modelName : Str
  lastStatus : Option Bool
  channel : Channel
  checkLogs : List CheckStatus
deriving DecidableEq

/-- Model-name parsing of `findChannelByModel` (proxy/index.ts lines
120–128): `indexOf("/") > 0` splits the string into a channel-name
filter and the actual model name. -/
def slashIdx : Str → Option Nat
  | [] => none
  | c :: rest =>
      if c = '/' then some 0 else (slashIdx rest).map (fun i => i + 1)

/-- Channel-name filter and actual model name derived from the
requested model string. -/
def parseModelName (modelName : Str) : Option Str × Str :=
  match slashIdx modelName with
  | some i => if i > 0 then (some (modelName.take i), modelName.drop (i + 1)) else (none, modelName)
  | none => (none, modelName)

/-- Where-clause of the `findFirst` in `findChannelByModel`: model name
equals the actual name, and, when a filter is present, the channel name
equals the filter.  The clause does not constrain `enabled`. -/
def rowMatches (filter : Option Str) (actual : Str) (row : ModelRow) : Bool :=
  row.modelName = actual &&
    (match filter with
     | some f => row.channel.name = f
     | none => true)

/-- JavaScript `replace(/\/$/, "")`: drop one trailing slash. -/
def stripTrailingSlash (s : Str) : Str :=
  if s.getLast? = some '/' then s.dropLast else s

/-- Embedding of `normalizeBaseUrl` (proxy/index.ts lines 438–444):
drop a trailing slash, then a trailing `/v1`. -/
def normalizeBaseUrl (baseUrl : Str) : Str :=
  let normalized := stripTrailingSlash baseUrl
  if jsEndsWith normalized (str "/v1") then normalized.take (normalized.length - 3)
  else normalized

/-- Result record of `findChannelByModel`. -/
structure ChannelResult where
  channelId : Str
  channelName : Str
  baseUrl : Str
  apiKey : Str
  proxy : Option Str
  actualModelName : Str
  modelId : Str
  modelStatus : Option Bool
deriving DecidableEq

/-- Construction of the result record from a matching row
(proxy/index.ts lines 153–162). -/
def mkChannelResult (row : ModelRow) (actual : Str) : ChannelResult :=
  { channelId := row.channel.id
    channelName := row.channel.name
    baseUrl := stripTrailingSlash row.channel.baseUrl
    apiKey := row.channel.apiKey
    proxy := row.channel.proxy
    actualModelName := actual
    modelId := row.id
    modelStatus := row.lastStatus }

/-- Embedding of `findChannelByModel` (proxy/index.ts lines 110–163)
over an explicit model-row store: parse the name, take the first row
matching the where-clause, and return null when there is no such row or
its channel is disabled. -/
def findChannelByModel (db : List ModelRow) (modelName : Str) : Option ChannelResult :=
  let parsed := parseModelName modelName
  let actual := parsed.2
  match db.find? (rowMatches parsed.1 actual) with
  | none => none
  | some row => if row.channel.enabled then some (mkChannelResult row actual) else none

/-- Upstream request assembled by the chat-completions proxy route. -/
structure UpstreamRequest where
  url : Str
  body : Json

/-- Replacement of the `model` field by the spread
`{ ...body, model: actualModelName }`. -/
def setModelField (fields : List (Str × Json)) (actual : Str) : List (Str × Json) :=
  if fields.any (fun kv => kv.1 = str "model") then
    fields.map (fun kv => if kv.1 = str "model" then (kv.1, Json.jstr actual) else kv)
  else fields ++ [(str "model", Json.jstr actual)]

/-- Embedding of the POST /v1/chat/completions handler body
(src/app/v1/chat/completions/route.ts lines 23–49) after
authentication: read the `model` field (400 on a falsy value, i.e. a
missing, non-string or empty model), resolve the channel (404 on
null), rewrite the body's model and build the upstream URL from the
normalized base URL and the canonical path. -/
def chatCompletionsForward (db : List ModelRow) (body : Json) : Option UpstreamRequest :=
  match body with
  | Json.obj fields =>
      match fieldGet fields (str "model") with
      | some (Json.jstr modelName) =>
          if modelName.isEmpty then none
          else
            match findChannelByModel db modelName with
            | none => none
            | some ch =>
                some { url := normalizeBaseUrl ch.baseUrl ++ str "/v1/chat/completions"
                       body := Json.obj (setModelField fields ch.actualModelName) }
      | _ => none
  | _ => none

/-! ## Model listing (getAllModelsWithChannels and GET /v1/models) -/

/-- ProxyKey row fields used for permission filtering. -/
structure KeyRecord where
  allowAllModels : Bool
  allowedChannelIds : Option (List Str)
  allowedModelIds : Option (List Str)
deriving DecidableEq

/-- Where-clause of `getAllModelsWithChannels` (proxy/index.ts lines
216–268) applied to one row: enabled channel, at least one SUCCESS
check log, and the permission filter derived from the key record
(`none` models the built-in environment key, which has no record). -/
def modelListWhere (keyRecord : Option KeyRecord) (row : ModelRow) : Bool :=
  row.channel.enabled &&
  row.checkLogs.any (fun st => st = CheckStatus.SUCCESS) &&
  (match keyRecord with
   | none => true
   | some k =>
       if k.allowAllModels then true
       else
         let allowedChannelIds := k.allowedChannelIds.getD []
         let allowedModelIds := k.allowedModelIds.getD []
         let hasChannelPerms := !allowedChannelIds.isEmpty
         let hasModelPerms := !allowedModelIds.isEmpty
         if !hasChannelPerms && !hasModelPerms then false
         else if hasChannelPerms && hasModelPerms then
           allowedChannelIds.contains row.channel.id || allowedModelIds.contains row.id
         else if hasChannelPerms then allowedChannelIds.contains row.channel.id
         else allowedModelIds.contains row.id)

/-- Comparator of the Prisma `orderBy`: channel name ascending, then
model name ascending (lexicographic on char code lists). -/
def modelOrder (a b : ModelRow) : Bool :=
  if a.channel.name = b.channel.name then
    decide (a.modelName ≤ b.modelName)
  else decide (a.channel.name ≤ b.channel.name)

/-- Embedding of `getAllModelsWithChannels` (proxy/index.ts lines
208–289): filter by the where-clause, order, and project. -/
def getAllModelsWithChannels (keyRecord : Option KeyRecord) (db : List ModelRow) :
    List (Str × Str × Str) :=
  ((db.filter (modelListWhere keyRecord)).mergeSort modelOrder).map
    (fun row => (row.id, row.modelName, row.channel.name))

/-- Entry of the GET /v1/models response body. -/
structure ModelEntry where
  id : Str
  object : Str
  created : Nat
  owned_by : Str
deriving DecidableEq

/-- Embedding of the GET /v1/models projection
(src/app/v1/models/route.ts lines 16–24): `<channelName>/<modelName>`,
object "model", created 0, owned_by the channel name. -/
def v1ModelsData (keyRecord : Option KeyRecord) (db : List ModelRow) : List ModelEntry :=
  (getAllModelsWithChannels keyRecord db).map
    (fun m => { id := m.2.2 ++ '/' :: m.2.1, object := str "model", created := 0, owned_by := m.2.2 })

/-! ## Detection queue (src/lib/queue/queue.ts) -/

/-- Queue job: id plus the optional worker lock token consulted by
`pauseAndDrainQueue`. -/
structure Job where
  id : Str
  token : Option Str
deriving DecidableEq

/-- Queue state: the stop flag, the paused flag, the three job lists,
the accumulated failed jobs with their failure messages, and the Redis
counters. -/
structure QueueState where
  stopped : Bool
  paused : Bool
  waiting : List Job
  delayed : List Job
  active : List Job
  failed : List (Job × Str)
  semaphores : List (Str × Nat)
deriving DecidableEq

/-- Statistics consumed by `isQueueRunning`
(`Pick<QueueStats, "active" | "waiting" | "delayed">`). -/
structure QueueStatsPick where
  active : Nat
  waiting : Nat
  delayed : Nat
deriving DecidableEq

/-- Embedding of `isQueueRunning` (queue.ts lines 81–83). -/
def isQueueRunning (stats : QueueStatsPick) : Bool :=
  stats.active > 0 || stats.waiting > 0 || stats.delayed > 0

/-- Failure message written to cancelled active jobs. -/
def detectionStoppedMsg : Str := str "Detection stopped by user"

/-- Key pattern of the Redis semaphore counters
(`detection:semaphore:*`). -/
def semKeyStart : Str := str "detection:semaphore:"

/-- Value of a semaphore counter as read back from the store: 0 when
the key is absent. -/
def semGet (s : QueueState) (key : Str) : Nat :=
  (s.semaphores.lookup key).getD 0

/-- The four operations inside the `try` block of
`pauseAndDrainQueue`, any of which may throw. -/
inductive DrainStep
  | countJobs
  | failActive
  | drainJobs
  | clearSem
deriving DecidableEq

/-- Embedding of `pauseAndDrainQueue` (queue.ts lines 166–220), with a
fault oracle marking which step of the `try` block throws (a throwing
step is modelled as taking effect not at all).  The stop flag and the
pause happen before the `try`; the `finally` resumes the queue on every
path.  Active jobs are fetched by `getJobs(["active"], 0, 1000)`
(modelled as the first 1000); a job holding a token is moved to failed
with `detectionStoppedMsg`, a token-less job is removed.  The cleared
count sums the waiting and delayed counts taken before draining plus
the number of retrieved active jobs. -/
def pauseAndDrainQueueO (s : QueueState) (throws : DrainStep → Bool) :
    QueueState × Except Str Nat :=
  let s1 : QueueState := { s with stopped := true, paused := true }
  if throws DrainStep.countJobs then ({ s1 with paused := false }, Except.error (str "count")) else
  let waitingCount := s1.waiting.length
  let delayedCount := s1.delayed.length
  let activeJobs := s1.active.take 1000
  if throws DrainStep.failActive then ({ s1 with paused := false }, Except.error (str "fail")) else
  let s2 : QueueState := { s1 with
    active := s1.active.drop 1000
    failed := s1.failed ++ activeJobs.filterMap (fun j => j.token.map (fun _ => (j, detectionStoppedMsg))) }
  if throws DrainStep.drainJobs then ({ s2 with paused := false }, Except.error (str "drain")) else
  let s3 : QueueState := { s2 with waiting := [], delayed := [] }
  if throws DrainStep.clearSem then ({ s3 with paused := false }, Except.error (str "sem")) else
  let s4 : QueueState := { s3 with
    semaphores := s3.semaphores.filter (fun kv => !semKeyStart.isPrefixOf kv.1) }
  ({ s4 with paused := false }, Except.ok (waitingCount + delayedCount + activeJobs.length))

/-- The non-faulting run of `pauseAndDrainQueue`. -/
def pauseAndDrainQueue (s : QueueState) : QueueState × Except Str Nat :=
  pauseAndDrainQueueO s (fun _ => false)

/-! ## Detection trigger (src/app/api/detect/route.ts) -/

/-- Outcome of the POST /api/detect control flow after
authentication: a 409 conflict response (carrying the progress
snapshot), or one of the three trigger calls.  Only the trigger
outcomes enqueue jobs; the conflict arm returns before any trigger
function is invoked. -/
inductive DetectOutcome
  | conflict (status : Nat) (code : Str) (hasProgress : Bool)
  | modelDetection (modelId : Str)
  | channelDetection (channelId : Str)
  | fullDetection
deriving DecidableEq

/-- Embedding of the POST /api/detect dispatch (detect/route.ts lines
20–79): a model-scoped request always triggers; a channel-scoped
request conflicts when that channel is in flight; a full request
conflicts when the queue is running. -/
def detectPost (channelId modelId : Option Str) (testingChannelIds : List Str)
    (stats : QueueStatsPick) : DetectOutcome :=
  match modelId with
  | some m => DetectOutcome.modelDetection m
  | none =>
      match channelId with
      | some c =>
          if testingChannelIds.contains c then
            DetectOutcome.conflict 409 (str "DETECTION_RUNNING") true
          else DetectOutcome.channelDetection c
      | none =>
          if isQueueRunning stats then
            DetectOutcome.conflict 409 (str "DETECTION_RUNNING") true
          else DetectOutcome.fullDetection

/-! ## Scheduler configuration update (src/app/api/scheduler/config/route.ts) -/

/-- Stored `SchedulerConfig` fields touched by the PUT handler. -/
structure SchedulerCfg where
  enabled : Bool
  cronSchedule : Str
  timezone : Str
  channelConcurrency : Int
  maxGlobalConcurrency : Int
  minDelayMs : Int
  maxDelayMs : Int
  detectAllChannels : Bool
  selectedChannelIds : List Str
  selectedModelIds : List Str
deriving DecidableEq

/-- Request body of PUT /api/scheduler/config; absent fields are
`none`. -/
structure SchedulerPutBody where
  enabled : Option Bool
  cronSchedule : Option Str
  timezone : Option Str
  channelConcurrency : Option Int
  maxGlobalConcurrency : Option Int
  minDelayMs : Option Int
  maxDelayMs : Option Int
  detectAllChannels : Option Bool
  selectedChannelIds : Option (List Str)
  selectedModelIds : Option (List Str)
deriving DecidableEq

/-- JavaScript `split(" ")`: split on every single space, keeping empty
segments. -/
def jsSplitOnSpace : Str → List Str
  | [] => [[]]
  | c :: rest =>
      match jsSplitOnSpace rest with
      | h :: t => if c = ' ' then [] :: h :: t else (c :: h) :: t
      | [] => [[]]

/-- Outcome of the PUT handler: a 400 with an error code and no write,
or the stored configuration after the upsert together with the cron
reload that follows it. -/
inductive PutConfigOutcome
  | badRequest (status : Nat) (code : Str)
  | ok (config : SchedulerCfg) (reloaded : Bool)
deriving DecidableEq

/-- Merge of the defined body fields over a base configuration — the
update arm of the upsert; the create arm is the same merge over the
defaults. -/
def applyBodyTo (base : SchedulerCfg) (b : SchedulerPutBody) : SchedulerCfg :=
  { enabled := b.enabled.getD base.enabled
    cronSchedule := b.cronSchedule.getD base.cronSchedule
    timezone := b.timezone.getD base.timezone
    channelConcurrency := b.channelConcurrency.getD base.channelConcurrency
    maxGlobalConcurrency := b.maxGlobalConcurrency.getD base.maxGlobalConcurrency
    minDelayMs := b.minDelayMs.getD base.minDelayMs
    maxDelayMs := b.maxDelayMs.getD base.maxDelayMs
    detectAllChannels := b.detectAllChannels.getD base.detectAllChannels
    selectedChannelIds := b.selectedChannelIds.getD base.selectedChannelIds
    selectedModelIds := b.selectedModelIds.getD base.selectedModelIds }

/-- Embedding of the PUT /api/scheduler/config handler
(scheduler/config/route.ts lines 90–197) after authentication: cron
validation when the field is present, delay validation only when both
bounds are present, then the upsert followed by the cron reload. -/
def putSchedulerConfig (defaults : SchedulerCfg) (stored : Option SchedulerCfg)
    (b : SchedulerPutBody) : PutConfigOutcome :=
  let cronBad := match b.cronSchedule with
    | some cs => (jsSplitOnSpace cs).length != 5
    | none => false
  if cronBad then PutConfigOutcome.badRequest 400 (str "INVALID_CRON")
  else
    match b.minDelayMs, b.maxDelayMs with
    | some mn, some mx =>
        if mn < 0 || mx < 0 then PutConfigOutcome.badRequest 400 (str "INVALID_DELAY")
        else if mn > mx then PutConfigOutcome.badRequest 400 (str "INVALID_DELAY")
        else PutConfigOutcome.ok (applyBodyTo (stored.getD defaults) b) true
    | _, _ => PutConfigOutcome.ok (applyBodyTo (stored.getD defaults) b) true

example : jsSplitOnSpace (str "0 0,8 * * *") = [str "0", str "0,8", str "*", str "*", str "*"] := by decide
example : jsSplitOnSpace (str "a  b") = [str "a", [], str "b"] := by decide

/-! ## Theorems -/

/-- Claim C6: when the detection queue is non-empty (any job active,
waiting or delayed), a POST /api/detect request without channelId or
modelId returns 409 with code DETECTION_RUNNING and the progress
snapshot, and reaches none of the trigger functions, so no job is
enqueued. -/
theorem fullDetectionConflict (testingChannelIds : List Str) (stats : QueueStatsPick)
    (h : stats.active > 0 ∨ stats.waiting > 0 ∨ stats.delayed > 0) :
    detectPost none none testingChannelIds stats
      = DetectOutcome.conflict 409 (str "DETECTION_RUNNING") true := by
  have hrun : isQueueRunning stats = true := by
    rcases h with h | h | h <;> simp [isQueueRunning] <;> omega
  simp [detectPost, hrun]

/-- Witness for C6: three waiting jobs make the full-detection call
conflict. -/
theorem fullDetectionConflict_check :
    detectPost none none [] { active := 0, waiting := 3, delayed := 0 }
      = DetectOutcome.conflict 409 (str "DETECTION_RUNNING") true :=
  fullDetectionConflict [] { active := 0, waiting := 3, delayed := 0 }
    (Or.inr (Or.inl (by decide)))

/-- Claim C10: pauseAndDrainQueue resumes the queue on every exit path
of its try block — whichever of counting, failing active jobs,
draining, or clearing the semaphore keys throws, the final state is
unpaused. -/
theorem pauseDrainAlwaysResumes (s : QueueState) (throws : DrainStep → Bool) :
    (pauseAndDrainQueueO s throws).1.paused = false := by
  unfold pauseAndDrainQueueO
  repeat' split
  all_goals rfl

/-- Counterexample to claim C4 as stated: `"gemini-claude"` matches the
glob `gemini*` and not `claude*`, so the claim demands {CHAT, GEMINI},
but the source tests `includes("claude")` first and yields
{CHAT, CLAUDE}. -/
theorem endpointSelectionGlobMismatch :
    endpointsPerClaimC4 (str "gemini-claude") = [EndpointType.CHAT, EndpointType.GEMINI] ∧
    getEndpointsToTest (str "gemini-claude") = [EndpointType.CHAT, EndpointType.CLAUDE] ∧
    getEndpointsToTest (str "gemini-claude") ≠ endpointsPerClaimC4 (str "gemini-claude") := by
  refine ⟨by decide, by decide, by decide⟩

/-- Claim C4 amended: endpoint selection is case-insensitive with the
tests applied in order to the lowercased name — CHAT is always probed;
CLAUDE iff the name contains "claude"; GEMINI iff it contains "gemini"
but not "claude"; CODEX iff it contains neither and matches /gpt-4o/,
/gpt-5/ or /^o[134](-|$)/; IMAGE is never selected by name. -/
theorem endpointSelectionMembers (name : Str) :
    EndpointType.CHAT ∈ getEndpointsToTest name ∧
    (EndpointType.CLAUDE ∈ getEndpointsToTest name ↔
      jsIncludes (jsLower name) (str "claude") = true) ∧
    (EndpointType.GEMINI ∈ getEndpointsToTest name ↔
      (jsIncludes (jsLower name) (str "claude") = false ∧
       jsIncludes (jsLower name) (str "gemini") = true)) ∧
    (EndpointType.CODEX ∈ getEndpointsToTest name ↔
      (jsIncludes (jsLower name) (str "claude") = false ∧
       jsIncludes (jsLower name) (str "gemini") = false ∧
       (jsIncludes (jsLower name) (str "gpt-4o") = true ∨
        jsIncludes (jsLower name) (str "gpt-5") = true ∨
        o134Test (jsLower name) = true))) ∧
    EndpointType.IMAGE ∉ getEndpointsToTest name := by
  by_cases h1 : jsIncludes (jsLower name) (str "claude") = true
  · simp [getEndpointsToTest, detectCliEndpointType, h1]
  · by_cases h2 : jsIncludes (jsLower name) (str "gemini") = true
    · simp [getEndpointsToTest, detectCliEndpointType, h1, h2]
    · by_cases h3 : (jsIncludes (jsLower name) (str "gpt-4o")
          || jsIncludes (jsLower name) (str "gpt-5") || o134Test (jsLower name)) = true
      · simp only [Bool.or_eq_true] at h3
        simp [getEndpointsToTest, detectCliEndpointType, h1, h2, h3]
        tauto
      · simp only [Bool.or_eq_true, not_or] at h3
        simp [getEndpointsToTest, detectCliEndpointType, h1, h2,
          Bool.not_eq_true _ ▸ h3.1, h3]

/-- Default scheduler configuration, mirroring DEFAULT_CONFIG of the
route with the documented environment defaults. -/
def schedDefaults : SchedulerCfg :=
  { enabled := true
    cronSchedule := str "0 0,8,12,16,20 * * *"
    timezone := str "Asia/Shanghai"
    channelConcurrency := 5
    maxGlobalConcurrency := 30
    minDelayMs := 3000
    maxDelayMs := 5000
    detectAllChannels := true
    selectedChannelIds := []
    selectedModelIds := [] }

/-- A request body updating only the lower delay bound. -/
def minOnlyBody : SchedulerPutBody :=
  { enabled := none, cronSchedule := none, timezone := none
    channelConcurrency := none, maxGlobalConcurrency := none
    minDelayMs := some 10000, maxDelayMs := none
    detectAllChannels := none, selectedChannelIds := none, selectedModelIds := none }

/-- Counterexample to claim C8 as stated: with stored delays
(3000, 5000), a PUT carrying only `minDelayMs = 10000` is applied and
answered 200, leaving the stored pair reversed (10000 > 5000), where
the claim demands a 400 with no change. -/
theorem schedulerConfigSingleBound :
    putSchedulerConfig schedDefaults (some schedDefaults) minOnlyBody
      = PutConfigOutcome.ok { schedDefaults with minDelayMs := 10000 } true ∧
    ({ schedDefaults with minDelayMs := 10000 } : SchedulerCfg).minDelayMs
      > ({ schedDefaults with minDelayMs := 10000 } : SchedulerCfg).maxDelayMs := by
  refine ⟨by decide, by decide⟩

/-- Claim C8 amended: the PUT handler rejects a cron string without
exactly 5 space-separated fields (400 INVALID_CRON, nothing stored),
and rejects a negative or reversed delay range only when BOTH bounds
are present in the request (400 INVALID_DELAY, nothing stored); a
request supplying at most one of the two bounds skips delay validation
and is applied even if the stored pair becomes reversed; every valid
update stores the merged configuration and reloads the cron entry. -/
theorem schedulerConfigValidation (defaults : SchedulerCfg) (stored : Option SchedulerCfg)
    (b : SchedulerPutBody) :
    (∀ cs, b.cronSchedule = some cs → (jsSplitOnSpace cs).length ≠ 5 →
      putSchedulerConfig defaults stored b = PutConfigOutcome.badRequest 400 (str "INVALID_CRON")) ∧
    (∀ mn mx, b.minDelayMs = some mn → b.maxDelayMs = some mx →
      (∀ cs, b.cronSchedule = some cs → (jsSplitOnSpace cs).length = 5) →
      (mn < 0 ∨ mx < 0 ∨ mn > mx) →
      putSchedulerConfig defaults stored b = PutConfigOutcome.badRequest 400 (str "INVALID_DELAY")) ∧
    ((∀ cs, b.cronSchedule = some cs → (jsSplitOnSpace cs).length = 5) →
      (∀ mn mx, b.minDelayMs = some mn → b.maxDelayMs = some mx → 0 ≤ mn ∧ mn ≤ mx) →
      putSchedulerConfig defaults stored b
        = PutConfigOutcome.ok (applyBodyTo (stored.getD defaults) b) true) := by
  refine ⟨?_, ?_, ?_⟩
  · intro cs hcs hbad
    simp [putSchedulerConfig, hcs, hbad]
  · intro mn mx hmn hmx hcron hinvalid
    have hcronOk : (match b.cronSchedule with
        | some cs => (jsSplitOnSpace cs).length != 5
        | none => false) = false := by
      cases hb : b.cronSchedule with
      | none => rfl
      | some cs => simp [hcron cs hb]
    rcases hinvalid with h | h | h <;>
      simp [putSchedulerConfig, hcronOk, hmn, hmx] <;> omega
  · intro hcron hdelay
    have hcronOk : (match b.cronSchedule with
        | some cs => (jsSplitOnSpace cs).length != 5
        | none => false) = false := by
      cases hb : b.cronSchedule with
      | none => rfl
      | some cs => simp [hcron cs hb]
    cases hmn : b.minDelayMs with
    | none => simp [putSchedulerConfig, hcronOk, hmn]
    | some mn =>
        cases hmx : b.maxDelayMs with
        | none => simp [putSchedulerConfig, hcronOk, hmn, hmx]
        | some mx =>
            have hd := hdelay mn mx hmn hmx
            have h1 : ¬(mn < 0 ∨ mx < 0) := by omega
            have h2 : ¬mx < mn := by omega
            simp [putSchedulerConfig, hcronOk, hmn, hmx, h1, h2]

/-- Witness for C8 amended: a 4-field cron string is rejected with
INVALID_CRON. -/
theorem schedulerConfigValidation_check :
    putSchedulerConfig schedDefaults none
        { minOnlyBody with minDelayMs := none, cronSchedule := some (str "0 0 * *") }
      = PutConfigOutcome.badRequest 400 (str "INVALID_CRON") :=
  (schedulerConfigValidation schedDefaults none
    { minOnlyBody with minDelayMs := none, cronSchedule := some (str "0 0 * *") }).1
    (str "0 0 * *") rfl (by decide)

/-- A model row owned by a disabled channel. -/
def disabledOwnerRow : ModelRow :=
  { id := str "m1", modelName := str "gpt", lastStatus := none
    channel := { id := str "c1", name := str "A", baseUrl := str "http://a.example"
                 apiKey := str "ka", proxy := none, enabled := false }
    checkLogs := [] }

/-- The same model owned by an enabled channel, later in store order. -/
def enabledOwnerRow : ModelRow :=
  { id := str "m2", modelName := str "gpt", lastStatus := some true
    channel := { id := str "c2", name := str "B", baseUrl := str "http://b.example"
                 apiKey := str "kb", proxy := none, enabled := true }
    checkLogs := [CheckStatus.SUCCESS] }

/-- Counterexample to claim C2 as stated: an enabled channel owns the
requested model, yet resolution returns not-found, because the
unfiltered `findFirst` selects the disabled owner that precedes it in
store order. -/
theorem findChannelEnabledShadowed :
    (∃ row ∈ [disabledOwnerRow, enabledOwnerRow],
        row.modelName = str "gpt" ∧ row.channel.enabled = true) ∧
    findChannelByModel [disabledOwnerRow, enabledOwnerRow] (str "gpt") = none := by
  refine ⟨⟨enabledOwnerRow, by decide, by decide, by decide⟩, by decide⟩

/-- Claim C2 amended: resolution considers only the first row matching
the parsed filter and model name in store order — every returned tuple
comes from an enabled matching row (so a disabled channel is never
matched), and not-found is returned exactly when there is no matching
row or the first matching row's channel is disabled (even if a later
enabled channel owns the model). -/
theorem findChannelFirstMatch (db : List ModelRow) (m : Str) :
    (∀ r, findChannelByModel db m = some r →
      ∃ row ∈ db, row.channel.enabled = true ∧
        rowMatches (parseModelName m).1 (parseModelName m).2 row = true ∧
        r = mkChannelResult row (parseModelName m).2) ∧
    (findChannelByModel db m = none ↔
      ∀ row, db.find? (rowMatches (parseModelName m).1 (parseModelName m).2) = some row →
        row.channel.enabled = false) := by
  cases hfind : db.find? (rowMatches (parseModelName m).1 (parseModelName m).2) with
  | none =>
      constructor
      · intro r hr
        simp [findChannelByModel, hfind] at hr
      · simp [findChannelByModel, hfind]
  | some row =>
      by_cases hen : row.channel.enabled = true
      · constructor
        · intro r hr
          simp [findChannelByModel, hfind, hen] at hr
          exact ⟨row, List.mem_of_find?_eq_some hfind, hen, List.find?_some hfind, hr.symm⟩
        · simp [findChannelByModel, hfind, hen]
      · constructor
        · intro r hr
          simp [findChannelByModel, hfind, hen] at hr
        · simp [findChannelByModel, hfind, hen]

/-- Witness for C2 amended: on a store whose only row is the enabled
owner, resolution returns that row's tuple. -/
theorem findChannelFirstMatch_check :
    ∃ row ∈ [enabledOwnerRow], row.channel.enabled = true ∧
      rowMatches (parseModelName (str "gpt")).1 (parseModelName (str "gpt")).2 row = true ∧
      mkChannelResult enabledOwnerRow (str "gpt")
        = mkChannelResult row (parseModelName (str "gpt")).2 :=
  (findChannelFirstMatch [enabledOwnerRow] (str "gpt")).1
    (mkChannelResult enabledOwnerRow (str "gpt")) (by decide)

/-- Lookup of a semaphore key after the prefix filter: a key matching
the pattern is gone. -/
theorem lookup_filtered_semKey (l : List (Str × Nat)) (k : Str)
    (hk : semKeyStart.isPrefixOf k = true) :
    (l.filter (fun kv => !semKeyStart.isPrefixOf kv.1)).lookup k = none := by
  induction l with
  | nil => rfl
  | cons kv rest ih =>
      by_cases hkv : semKeyStart.isPrefixOf kv.1 = true
      · simpa [List.filter, hkv] using ih
      · have hne : (k == kv.1) = false := by
          refine beq_eq_false_iff_ne.mpr ?_
          intro he
          exact hkv (he ▸ hk)
        simp [List.filter, hkv, List.lookup, hne, ih]

/-- Queue state with a single token-less active job. -/
def tokenlessActiveState : QueueState :=
  { stopped := false, paused := false, waiting := [], delayed := []
    active := [{ id := str "j1", token := none }], failed := [], semaphores := [] }

/-- Counterexample to claim C7 as stated: a token-less active job is
removed rather than marked failed, so after the drain no job carries
the failure message "Detection stopped by user" although an active job
was present. -/
theorem pauseDrainTokenless :
    tokenlessActiveState.active ≠ [] ∧
    (pauseAndDrainQueue tokenlessActiveState).1.failed = [] ∧
    (pauseAndDrainQueue tokenlessActiveState).2 = Except.ok 1 := by
  refine ⟨by decide, rfl, rfl⟩

/-- Claim C7 amended: pauseAndDrainQueue sets the stop flag, drops all
waiting and delayed jobs, empties the active list (failing each of the
first 1000 retrieved active jobs that holds a worker token with message
"Detection stopped by user" and removing token-less ones), deletes
every detection semaphore counter (which therefore reads 0), resumes
leasing, and returns cleared = waiting + delayed + retrieved-active;
a second consecutive call succeeds with cleared = 0. -/
theorem pauseDrainAmended (s : QueueState) (h : s.active.length ≤ 1000) :
    (pauseAndDrainQueue s).1.stopped = true ∧
    (pauseAndDrainQueue s).1.paused = false ∧
    (pauseAndDrainQueue s).1.waiting = [] ∧
    (pauseAndDrainQueue s).1.delayed = [] ∧
    (pauseAndDrainQueue s).1.active = [] ∧
    (∀ j ∈ s.active, j.token.isSome = true →
      (j, detectionStoppedMsg) ∈ (pauseAndDrainQueue s).1.failed) ∧
    (∀ k, semKeyStart.isPrefixOf k = true → semGet (pauseAndDrainQueue s).1 k = 0) ∧
    (pauseAndDrainQueue s).2
      = Except.ok (s.waiting.length + s.delayed.length + s.active.length) ∧
    (pauseAndDrainQueue (pauseAndDrainQueue s).1).2 = Except.ok 0 := by
  have htake : s.active.take 1000 = s.active := List.take_of_length_le h
  have hdrop : s.active.drop 1000 = [] := List.drop_eq_nil_of_le h
  refine ⟨rfl, rfl, rfl, rfl, ?_, ?_, ?_, ?_, ?_⟩
  · simp [pauseAndDrainQueue, pauseAndDrainQueueO, hdrop]
  · intro j hj htok
    simp only [pauseAndDrainQueue, pauseAndDrainQueueO, htake]
    refine List.mem_append_right _ ?_
    refine List.mem_filterMap.mpr ⟨j, hj, ?_⟩
    cases htk : j.token with
    | none => simp [htk] at htok
    | some t => simp [htk]
  · intro k hk
    simp only [pauseAndDrainQueue, pauseAndDrainQueueO, semGet]
    simp [lookup_filtered_semKey _ _ hk]
  · simp [pauseAndDrainQueue, pauseAndDrainQueueO, htake]
  · simp [pauseAndDrainQueue, pauseAndDrainQueueO, hdrop]

/-- Witness for C7 amended: one waiting job and one token-holding
active job give cleared = 2, and a second call clears 0. -/
theorem pauseDrainAmended_check :
    (pauseAndDrainQueue
        { stopped := false, paused := false
          waiting := [{ id := str "w1", token := none }], delayed := []
          active := [{ id := str "a1", token := some (str "t") }]
          failed := [], semaphores := [(str "detection:semaphore:global", 3)] }).2
      = Except.ok 2 ∧
    (pauseAndDrainQueue (pauseAndDrainQueue
        { stopped := false, paused := false
          waiting := [{ id := str "w1", token := none }], delayed := []
          active := [{ id := str "a1", token := some (str "t") }]
          failed := [], semaphores := [(str "detection:semaphore:global", 3)] }).1).2
      = Except.ok 0 :=
  ⟨((pauseDrainAmended _ (by decide)).2.2.2.2.2.2.2).1,
   ((pauseDrainAmended _ (by decide)).2.2.2.2.2.2.2).2⟩

/-- Pattern 1 fires exactly on the error-field clause of the spec. -/
theorem pattern1_isSome (fs : List (Str × Json)) :
    (pattern1 fs).isSome = specClause1 fs := by
  unfold pattern1 specClause1
  cases he : fieldGet fs (str "error") with
  | none => rfl
  | some v =>
      cases v with
      | jstr s => by_cases hs : s.isEmpty = true <;> simp [hs]
      | obj efs =>
          cases hm : fieldGet efs (str "message") with
          | none => simp [hm]
          | some w => cases w <;> simp [hm]
      | null => rfl
      | bool b => rfl
      | num n => rfl
      | arr l => rfl

/-- Pattern 2 fires exactly on the success/message clause. -/
theorem pattern2_isSome (fs : List (Str × Json)) :
    (pattern2 fs).isSome = specClause2 fs := by
  unfold pattern2 specClause2
  cases hs : fieldGet fs (str "success") with
  | none => rfl
  | some v =>
      cases v with
      | bool b =>
          cases b with
          | false =>
              cases hm : fieldGet fs (str "message") with
              | none => rfl
              | some w => cases w <;> rfl
          | true => rfl
      | null => rfl
      | num n => rfl
      | jstr t => rfl
      | arr l => rfl
      | obj g => rfl

/-- Pattern 3 fires exactly on the non-zero-code clause. -/
theorem pattern3_isSome (fs : List (Str × Json)) :
    (pattern3 fs).isSome = specClause3 fs := by
  unfold pattern3 specClause3
  cases hc : fieldGet fs (str "code") with
  | none => rfl
  | some v =>
      cases v with
      | num n =>
          cases hm : fieldGet fs (str "message") with
          | none => rfl
          | some w =>
              cases w <;> try rfl
              rename_i m
              by_cases hn : n = 0 <;> simp [hn]
      | null => rfl
      | bool b => rfl
      | jstr t => rfl
      | arr l => rfl
      | obj g => rfl

/-- Pattern 4 fires exactly on the status clause. -/
theorem pattern4_isSome (fs : List (Str × Json)) :
    (pattern4 fs).isSome = specClause4 fs := by
  unfold pattern4 specClause4
  cases hst : fieldGet fs (str "status") with
  | none => rfl
  | some v =>
      cases v with
      | jstr s =>
          by_cases hmatch : (s = str "error" || s = str "fail" || s = str "failed") = true
          · cases hm : fieldGet fs (str "message") with
            | none => simp [hmatch]
            | some w => cases w <;> simp [hmatch]
          · have hf : (s = str "error" || s = str "fail" || s = str "failed") = false :=
              Bool.not_eq_true _ ▸ (Bool.eq_false_iff.mpr hmatch)
            simp [hf]
      | null => rfl
      | bool b => rfl
      | num n => rfl
      | arr l => rfl
      | obj g => rfl

/-- The chain of the four patterns fires iff one of them does. -/
theorem check_isSome_chain (fs : List (Str × Json)) :
    (checkResponseBodyForError (Json.obj fs)).isSome
      = ((pattern1 fs).isSome || ((pattern2 fs).isSome
          || ((pattern3 fs).isSome || (pattern4 fs).isSome))) := by
  show (match pattern1 fs with
    | some m => some m
    | none => match pattern2 fs with
      | some m => some m
      | none => match pattern3 fs with
        | some m => some m
        | none => pattern4 fs).isSome = _
  cases pattern1 fs with
  | some m => rfl
  | none =>
      cases pattern2 fs with
      | some m => rfl
      | none =>
          cases pattern3 fs with
          | some m => rfl
          | none => simp

/-- The source's error check fires exactly on the four spec patterns
of claim C5. -/
theorem check_isSome_eq_spec (body : Json) :
    (checkResponseBodyForError body).isSome = errorPatternSpec body := by
  cases body with
  | obj fs =>
      rw [check_isSome_chain fs, pattern1_isSome fs, pattern2_isSome fs,
        pattern3_isSome fs, pattern4_isSome fs]
      simp [errorPatternSpec, Bool.or_assoc]
  | null => rfl
  | bool b => rfl
  | num n => rfl
  | jstr s => rfl
  | arr l => rfl

/-- Claim C5: on a 2xx upstream response, a JSON body matching any of
the four error patterns downgrades the result to FAIL with the
extracted message and the upstream status code preserved; a 2xx body
matching none of the patterns yields SUCCESS. -/
theorem bodyErrorDowngrade (sc : Nat) (body : Json) (ep : EndpointType) (rawText : Str)
    (h2xx : responseOk sc = true) :
    (errorPatternSpec body = true →
      ∃ m, checkResponseBodyForError body = some m ∧
        executeDetectionClassify sc (some body) ep rawText =
          { status := CheckStatus.FAIL, statusCode := some sc
            errorMsg := some m, responseContent := none }) ∧
    (errorPatternSpec body = false →
      (executeDetectionClassify sc (some body) ep rawText).status = CheckStatus.SUCCESS ∧
      (executeDetectionClassify sc (some body) ep rawText).statusCode = some sc) := by
  have hspec := check_isSome_eq_spec body
  constructor
  · intro htrue
    rw [htrue] at hspec
    cases hc : checkResponseBodyForError body with
    | none => rw [hc] at hspec; simp at hspec
    | some m =>
        exact ⟨m, rfl, by simp [executeDetectionClassify, h2xx, hc]⟩
  · intro hfalse
    rw [hfalse] at hspec
    cases hc : checkResponseBodyForError body with
    | some m => rw [hc] at hspec; simp at hspec
    | none => simp [executeDetectionClassify, h2xx, hc]

/-- Witness for C5: status 200 with body `{"error":"boom"}` is
downgraded to FAIL; the same status with `{"ok":1}` stays SUCCESS. -/
theorem bodyErrorDowngrade_check :
    (executeDetectionClassify 200 (some (Json.obj [(str "error", Json.jstr (str "boom"))]))
        EndpointType.CHAT []).status = CheckStatus.FAIL ∧
    (executeDetectionClassify 200 (some (Json.obj [(str "ok", Json.num 1)]))
        EndpointType.CHAT []).status = CheckStatus.SUCCESS := by
  constructor
  · obtain ⟨m, hm, he⟩ :=
      (bodyErrorDowngrade 200 (Json.obj [(str "error", Json.jstr (str "boom"))])
        EndpointType.CHAT [] (by decide)).1 (by decide)
    rw [he]
  · exact ((bodyErrorDowngrade 200 (Json.obj [(str "ok", Json.num 1)])
      EndpointType.CHAT [] (by decide)).2 (by decide)).1

/-- The permission predicate exactly as claim C3 words it: allow-all
keys (and the recordless built-in key) see everything; a restricted key
sees a model iff its channel id or model id is allow-listed (null lists
reading as empty, so two empty lists deny all). -/
def allowedPerClaim (keyRecord : Option KeyRecord) (channelId modelId : Str) : Prop :=
  match keyRecord with
  | none => True
  | some k => k.allowAllModels = true
      ∨ channelId ∈ k.allowedChannelIds.getD []
      ∨ modelId ∈ k.allowedModelIds.getD []

/-- The where-clause of the model listing is equivalent to the
claim's three conditions. -/
theorem modelListWhere_iff (keyRecord : Option KeyRecord) (row : ModelRow) :
    modelListWhere keyRecord row = true ↔
      (row.channel.enabled = true ∧ CheckStatus.SUCCESS ∈ row.checkLogs ∧
        allowedPerClaim keyRecord row.channel.id row.id) := by
  have hany : (row.checkLogs.any fun st => st = CheckStatus.SUCCESS) = true ↔
      CheckStatus.SUCCESS ∈ row.checkLogs := by
    simp [List.any_eq_true]
  unfold modelListWhere allowedPerClaim
  cases keyRecord with
  | none => simp [hany]
  | some k =>
      by_cases ha : k.allowAllModels = true
      · simp [ha, hany]
      · by_cases hch : (k.allowedChannelIds.getD []).isEmpty = true
        · by_cases hmi : (k.allowedModelIds.getD []).isEmpty = true
          · simp [ha, hch, hmi, hany, List.isEmpty_iff.mp hch, List.isEmpty_iff.mp hmi]
          · simp [ha, hch, hmi, hany, List.isEmpty_iff.mp hch, List.contains, List.elem_iff]
            tauto
        · by_cases hmi : (k.allowedModelIds.getD []).isEmpty = true
          · simp [ha, hch, hmi, hany, List.isEmpty_iff.mp hmi, List.contains, List.elem_iff]
            tauto
          · simp [ha, hch, hmi, hany, List.contains, List.elem_iff]
            tauto

/-- Claim C3: the GET /v1/models data contains exactly the entries
derived from rows whose channel is enabled, which own a SUCCESS probe
log, and which pass the claim's permission predicate; each entry is
`<channelName>/<modelName>` with object "model", created 0 and
owned_by the channel name — denied models are omitted. -/
theorem v1ModelsMembership (keyRecord : Option KeyRecord) (db : List ModelRow) (e : ModelEntry) :
    e ∈ v1ModelsData keyRecord db ↔
      ∃ row ∈ db, row.channel.enabled = true ∧ CheckStatus.SUCCESS ∈ row.checkLogs ∧
        allowedPerClaim keyRecord row.channel.id row.id ∧
        e = { id := row.channel.name ++ '/' :: row.modelName, object := str "model"
              created := 0, owned_by := row.channel.name } := by
  unfold v1ModelsData getAllModelsWithChannels
  simp only [List.mem_map, List.mem_mergeSort, List.mem_filter]
  constructor
  · rintro ⟨triple, ⟨⟨row, ⟨hrow, hp⟩, htriple⟩, he⟩⟩
    obtain ⟨hen, hsucc, hperm⟩ := (modelListWhere_iff keyRecord row).mp hp
    exact ⟨row, hrow, hen, hsucc, hperm, by rw [← he, ← htriple]⟩
  · rintro ⟨row, hrow, hen, hsucc, hperm, he⟩
    refine ⟨(row.id, row.modelName, row.channel.name),
      ⟨⟨row, ⟨hrow, (modelListWhere_iff keyRecord row).mpr ⟨hen, hsucc, hperm⟩⟩, rfl⟩, ?_⟩⟩
    rw [he]

/-- The first slash of `c ++ "/" ++ m` sits at index `c.length` when
`c` is slash-free. -/
theorem slashIdx_append (c m : Str) (hslash : '/' ∉ c) :
    slashIdx (c ++ '/' :: m) = some c.length := by
  induction c with
  | nil => simp [slashIdx]
  | cons a t ih =>
      have ha : a ≠ '/' := fun h => hslash (h ▸ List.mem_cons_self a t)
      have ht : '/' ∉ t := fun h => hslash (List.mem_cons_of_mem a h)
      simp [slashIdx, ha, ih ht]

/-- Parsing `"<c>/<m>"` with non-empty slash-free prefix yields the
channel filter `c` and actual model name `m`. -/
theorem parseModelName_append (c m : Str) (hc : c ≠ []) (hslash : '/' ∉ c) :
    parseModelName (c ++ '/' :: m) = (some c, m) := by
  have hlen : 0 < c.length := List.length_pos.mpr hc
  have h1 : List.take c.length (c ++ '/' :: m) = c := by
    simp [List.take_left c ('/' :: m)]
  have h2 : List.drop (c.length + 1) (c ++ '/' :: m) = m := by
    have hd : List.drop (c.length + 1) (c ++ '/' :: m)
        = List.drop 1 (List.drop c.length (c ++ '/' :: m)) := by
      rw [List.drop_drop]
    rw [hd]
    simp [List.drop_left c ('/' :: m)]
  simp only [parseModelName, slashIdx_append c m hslash, hlen, if_pos, h1, h2]

/-- Lookup of "model" after the replacing map of `setModelField`. -/
theorem fieldGet_map_model (fields : List (Str × Json)) (a : Str) :
    fieldGet (fields.map (fun kv => if kv.1 = str "model" then (kv.1, Json.jstr a) else kv))
        (str "model")
      = (match fieldGet fields (str "model") with
         | some _ => some (Json.jstr a)
         | none => none) := by
  induction fields with
  | nil => rfl
  | cons kv rest ih =>
      by_cases hk : kv.1 = str "model"
      · rw [List.map_cons, if_pos hk]
        simp [fieldGet, hk]
      · rw [List.map_cons, if_neg hk]
        simp [fieldGet, hk, ih]

/-- A key owned by no binding resolves to none. -/
theorem fieldGet_none_of_not_any (fields : List (Str × Json)) (key : Str)
    (h : fields.any (fun kv => kv.1 = key) = false) :
    fieldGet fields key = none := by
  induction fields with
  | nil => rfl
  | cons kv rest ih =>
      simp only [List.any_cons, Bool.or_eq_false_iff] at h
      have hk : kv.1 ≠ key := by simpa using h.1
      simp [fieldGet, hk, ih h.2]

/-- Lookup through an unmatched prefix of bindings. -/
theorem fieldGet_append_of_none (fields rest : List (Str × Json)) (key : Str)
    (h : fieldGet fields key = none) :
    fieldGet (fields ++ rest) key = fieldGet rest key := by
  induction fields with
  | nil => rfl
  | cons kv tail ih =>
      by_cases hk : kv.1 = key
      · simp [fieldGet, hk] at h
      · simp only [fieldGet, hk, if_false, List.cons_append] at h ⊢
        simp [fieldGet, hk, ih h]

/-- An owned key resolves to some value. -/
theorem fieldGet_isSome_of_any (fields : List (Str × Json)) (key : Str)
    (h : fields.any (fun kv => kv.1 = key) = true) :
    (fieldGet fields key).isSome = true := by
  induction fields with
  | nil => simp at h
  | cons kv rest ih =>
      by_cases hk : kv.1 = key
      · simp [fieldGet, hk]
      · simp only [List.any_cons, Bool.or_eq_true] at h
        rcases h with h | h
        · simp [hk] at h
        · simp [fieldGet, hk, ih h]

/-- The spread `{ ...body, model: actual }` leaves the model field
equal to the actual model name. -/
theorem setModelField_model (fields : List (Str × Json)) (a : Str) :
    fieldGet (setModelField fields a) (str "model") = some (Json.jstr a) := by
  unfold setModelField
  by_cases hany : fields.any (fun kv => kv.1 = str "model") = true
  · rw [if_pos hany, fieldGet_map_model]
    have := fieldGet_isSome_of_any fields (str "model") hany
    cases h : fieldGet fields (str "model") with
    | none => rw [h] at this; simp at this
    | some v => rfl
  · rw [if_neg hany]
    rw [fieldGet_append_of_none _ _ _
      (fieldGet_none_of_not_any fields (str "model") (Bool.eq_false_iff.mpr hany))]
    simp [fieldGet]

/-- Claim C1: for a request body whose model is `"<c>/<m>"` with a
non-empty slash-free prefix, whenever the chat-completions handler
forwards an upstream request, the upstream body's model is `"<m>"`,
and the URL is channel c's normalized base URL suffixed with the
canonical path `/v1/chat/completions`, where the matched row belongs
to channel `c` and owns model `<m>`. -/
theorem chatRoutingRoundtrip (db : List ModelRow) (fields : List (Str × Json)) (c m : Str)
    (hc : c ≠ []) (hslash : '/' ∉ c)
    (hmodel : fieldGet fields (str "model") = some (Json.jstr (c ++ '/' :: m)))
    (req : UpstreamRequest)
    (hreq : chatCompletionsForward db (Json.obj fields) = some req) :
    jGet req.body (str "model") = some (Json.jstr m) ∧
    ∃ row ∈ db, row.channel.enabled = true ∧ row.channel.name = c ∧ row.modelName = m ∧
      req.url = normalizeBaseUrl (stripTrailingSlash row.channel.baseUrl)
        ++ str "/v1/chat/completions" := by
  have hparse := parseModelName_append c m hc hslash
  have hne : (c ++ '/' :: m).isEmpty = false := by
    cases c with
    | nil => exact absurd rfl hc
    | cons a t => rfl
  simp only [chatCompletionsForward] at hreq
  rw [hmodel] at hreq
  simp only [hne, Bool.false_eq_true, if_false] at hreq
  cases hfind : findChannelByModel db (c ++ '/' :: m) with
  | none => rw [hfind] at hreq; cases hreq
  | some ch =>
      rw [hfind] at hreq
      have hreq2 : req = { url := normalizeBaseUrl ch.baseUrl ++ str "/v1/chat/completions"
                           body := Json.obj (setModelField fields ch.actualModelName) } := by
        cases hreq; rfl
      unfold findChannelByModel at hfind
      rw [hparse] at hfind
      simp only [] at hfind
      cases hrow : db.find? (rowMatches (some c) m) with
      | none => rw [hrow] at hfind; cases hfind
      | some row =>
          rw [hrow] at hfind
          simp only [] at hfind
          by_cases hen : row.channel.enabled = true
          · rw [if_pos hen] at hfind
            have hch : ch = mkChannelResult row m := by cases hfind; rfl
            have hmatch := List.find?_some hrow
            simp only [rowMatches, Bool.and_eq_true, decide_eq_true_eq] at hmatch
            refine ⟨?_, row, List.mem_of_find?_eq_some hrow, hen, hmatch.2, hmatch.1, ?_⟩
            · rw [hreq2, hch]
              show fieldGet (setModelField fields (mkChannelResult row m).actualModelName)
                (str "model") = some (Json.jstr m)
              exact setModelField_model fields m
            · rw [hreq2, hch]
              rfl
          · rw [if_neg hen] at hfind; cases hfind

/-- Witness for C1: `"B/gpt"` routed over a store owning `gpt` on
enabled channel B forwards model `gpt` to B's canonical URL. -/
theorem chatRoutingRoundtrip_check :
    jGet (Json.obj (setModelField [(str "model", Json.jstr (str "B/gpt"))] (str "gpt")))
        (str "model") = some (Json.jstr (str "gpt")) ∧
    ∃ row ∈ [enabledOwnerRow], row.channel.enabled = true ∧ row.channel.name = str "B" ∧
      row.modelName = str "gpt" ∧
      str "http://b.example/v1/chat/completions"
        = normalizeBaseUrl (stripTrailingSlash row.channel.baseUrl)
          ++ str "/v1/chat/completions" :=
  chatRoutingRoundtrip [enabledOwnerRow] [(str "model", Json.jstr (str "B/gpt"))]
    (str "B") (str "gpt") (by decide) (by decide) rfl
    { url := str "http://b.example/v1/chat/completions"
      body := Json.obj (setModelField [(str "model", Json.jstr (str "B/gpt"))] (str "gpt")) }
    rfl

/-! ## Size-bounded JSON values (claim C9) -/

mutual

/-- Every string and array in the value is shorter than 10^15,
reflecting that JavaScript string and array lengths are bounded far
below that. -/
def jsonBoundedB : Json → Bool
  | Json.null => true
  | Json.bool _ => true
  | Json.num _ => true
  | Json.jstr s => decide (s.length < 10 ^ 15)
  | Json.arr l => decide (l.length < 10 ^ 15) && jsonListBounded l
  | Json.obj fs => jsonFieldsBounded fs

/-- Boundedness of a list of values. -/
def jsonListBounded : List Json → Bool
  | [] => true
  | j :: t => jsonBoundedB j && jsonListBounded t

/-- Boundedness of object fields. -/
def jsonFieldsBounded : List (Str × Json) → Bool
  | [] => true
  | kv :: t => jsonBoundedB kv.2 && jsonFieldsBounded t

end

/-- Field values of a bounded object are bounded. -/
theorem jsonBounded_fieldGet (fs : List (Str × Json)) (k : Str) (v : Json)
    (hb : jsonFieldsBounded fs = true) (h : fieldGet fs k = some v) :
    jsonBoundedB v = true := by
  induction fs with
  | nil => cases h
  | cons kv rest ih =>
      rw [jsonFieldsBounded] at hb
      simp only [Bool.and_eq_true] at hb
      by_cases hk : kv.1 = k
      · rw [fieldGet, if_pos hk] at h
        cases h
        exact hb.1
      · rw [fieldGet, if_neg hk] at h
        exact ih hb.2 h

/-- Property values of a bounded value are bounded. -/
theorem jsonBounded_jGet (j : Json) (k : Str) (v : Json)
    (hb : jsonBoundedB j = true) (h : jGet j k = some v) :
    jsonBoundedB v = true := by
  cases j with
  | obj fs => exact jsonBounded_fieldGet fs k v hb h
  | null => cases h
  | bool b => cases h
  | num n => cases h
  | jstr s => cases h
  | arr l => cases h

/-- Elements of a bounded array are bounded. -/
theorem jsonBounded_mem (l : List Json) (x : Json)
    (hb : jsonListBounded l = true) (hx : x ∈ l) :
    jsonBoundedB x = true := by
  induction l with
  | nil => cases hx
  | cons a t ih =>
      rw [jsonListBounded] at hb
      simp only [Bool.and_eq_true] at hb
      rcases List.mem_cons.mp hx with h | h
      · exact h ▸ hb.1
      · exact ih hb.2 h

/-- A number below 10^k prints into at most `max k 1` digits. -/
theorem natToStrAux_length : ∀ (fuel k n : Nat), n < 10 ^ k →
    (natToStrAux fuel n).length ≤ max k 1 := by
  intro fuel
  induction fuel with
  | zero => intro k n _; simp [natToStrAux]
  | succ fuel ih =>
      intro k n h
      unfold natToStrAux
      by_cases hn : n < 10
      · simp [hn]
      · rw [if_neg hn]
        simp only [List.length_append, List.length_cons, List.length_nil]
        rcases k with _ | k
        · simp at h; omega
        · have hdiv : n / 10 < 10 ^ k := by
            refine (Nat.div_lt_iff_lt_mul (by norm_num)).mpr ?_
            calc n < 10 ^ (k + 1) := h
            _ = 10 ^ k * 10 := by ring
          have hk : 0 < k := by
            rcases Nat.eq_zero_or_pos k with h0 | h0
            · subst h0; simp at hdiv; omega
            · exact h0
          have := ih k (n / 10) hdiv
          rw [Nat.max_eq_left hk] at this
          rw [Nat.max_eq_left (by omega : 1 ≤ k + 1)]
          omega

/-- Digit-count bound for `natToStr`. -/
theorem natToStr_length (n k : Nat) (h : n < 10 ^ k) (hk : 0 < k) :
    (natToStr n).length ≤ k := by
  have := natToStrAux_length (n + 1) k n h
  rwa [Nat.max_eq_left hk] at this

/-- The rendered `.length` of a bounded value takes at most 15
characters. -/
theorem lengthPropStr_length (v : Json) (hb : jsonBoundedB v = true) :
    (lengthPropStr v).length ≤ 15 := by
  cases v with
  | jstr s =>
      rw [jsonBoundedB] at hb
      simp only [decide_eq_true_eq] at hb
      simpa [lengthPropStr, jsLengthProp] using natToStr_length s.length 15 hb (by norm_num)
  | arr l =>
      rw [jsonBoundedB] at hb
      simp only [Bool.and_eq_true, decide_eq_true_eq] at hb
      simpa [lengthPropStr, jsLengthProp] using natToStr_length l.length 15 hb.1 (by norm_num)
  | null => decide
  | bool b => cases b <;> decide
  | num n =>
      show (str "undefined").length ≤ 15
      decide
  | obj fs =>
      show (str "undefined").length ≤ 15
      decide

/-- Every CHAT preview is a 500-truncation. -/
theorem chatExtract_take (body : Json) (p : Str) (h : chatExtract body = some p) :
    ∃ s : Str, p = s.take 500 := by
  unfold chatExtract at h
  simp only [] at h
  repeat' split at h
  all_goals first
    | exact ⟨_, (Option.some.inj h).symm⟩
    | cases h

/-- Every CLAUDE fallback preview is a 500-truncation. -/
theorem claudeFallback_take (blocks : List Json) (p : Str)
    (h : claudeFallback blocks = some p) : ∃ s : Str, p = s.take 500 := by
  unfold claudeFallback at h
  repeat' split at h
  all_goals first
    | exact ⟨_, (Option.some.inj h).symm⟩
    | cases h

/-- Every CLAUDE preview is a 500-truncation. -/
theorem claudeExtract_take (body : Json) (p : Str) (h : claudeExtract body = some p) :
    ∃ s : Str, p = s.take 500 := by
  unfold claudeExtract at h
  repeat' split at h
  all_goals first
    | exact ⟨_, (Option.some.inj h).symm⟩
    | exact claudeFallback_take _ _ h
    | cases h

/-- Every GEMINI fallback preview is a 500-truncation. -/
theorem geminiFallback_take (parts : List Json) (p : Str)
    (h : geminiFallback parts = some p) : ∃ s : Str, p = s.take 500 := by
  unfold geminiFallback at h
  repeat' split at h
  all_goals first
    | exact ⟨_, (Option.some.inj h).symm⟩
    | cases h

/-- Every GEMINI preview is a 500-truncation. -/
theorem geminiExtract_take (body : Json) (p : Str) (h : geminiExtract body = some p) :
    ∃ s : Str, p = s.take 500 := by
  unfold geminiExtract at h
  repeat' split at h
  all_goals first
    | exact ⟨_, (Option.some.inj h).symm⟩
    | exact geminiFallback_take _ _ h
    | cases h

/-- Every CODEX content preview is a 500-truncation. -/
theorem codexFromContent_take (item : Json) (p : Str)
    (h : codexFromContent item = some p) : ∃ s : Str, p = s.take 500 := by
  unfold codexFromContent at h
  repeat' split at h
  all_goals first
    | exact ⟨_, (Option.some.inj h).symm⟩
    | cases h

/-- Every CODEX preview is a 500-truncation. -/
theorem codexLoop_take : ∀ (items : List Json) (p : Str),
    codexLoop items = some p → ∃ s : Str, p = s.take 500 := by
  intro items
  induction items with
  | nil => intro p h; cases h
  | cons item rest ih =>
      intro p h
      unfold codexLoop at h
      repeat' split at h
      all_goals try exact ⟨_, (Option.some.inj h).symm⟩
      all_goals try exact ih p h
      all_goals try cases h
      all_goals (rename_i heq; exact codexFromContent_take item p heq)

/-- Every CODEX extraction preview is a 500-truncation. -/
theorem codexExtract_take (body : Json) (p : Str) (h : codexExtract body = some p) :
    ∃ s : Str, p = s.take 500 := by
  unfold codexExtract at h
  repeat' split at h
  all_goals first
    | exact codexLoop_take _ _ h
    | cases h

/-- The terminal IMAGE string fits the bound. -/
theorem imageDone_length (p : Str) (h : imageDone = Except.ok (some p)) :
    p.length ≤ 500 := by
  have hp := Option.some.inj (Except.ok.inj h)
  rw [← hp]
  decide

/-- The revised-prompt IMAGE strings fit the bound. -/
theorem imageRevised_length (first : Json) (p : Str)
    (h : imageRevised first = Except.ok (some p)) : p.length ≤ 500 := by
  unfold imageRevised at h
  cases hr : jGet first (str "revised_prompt") with
  | none =>
      rw [hr] at h
      exact imageDone_length p h
  | some v =>
      rw [hr] at h
      cases v with
      | jstr s =>
          simp only [] at h
          by_cases hs : s.isEmpty = true
          · rw [if_pos hs] at h
            exact imageDone_length p h
          · rw [if_neg hs] at h
            have hp := Option.some.inj (Except.ok.inj h)
            rw [← hp]
            have h1 : (str "[Image generated with prompt: ").length = 30 := by decide
            have h2 : (str "]").length = 1 := by decide
            have h3 := List.length_take_le 100 s
            simp only [List.length_append, h1, h2]
            omega
      | null =>
          simp only [] at h
          rw [if_neg (by decide : ¬truthy Json.null = true)] at h
          exact imageDone_length p h
      | bool b =>
          simp only [] at h
          cases b with
          | false =>
              rw [if_neg (by decide : ¬truthy (Json.bool false) = true)] at h
              exact imageDone_length p h
          | true =>
              rw [if_pos (by decide : truthy (Json.bool true) = true)] at h
              cases h
      | num n =>
          simp only [] at h
          by_cases hn : truthy (Json.num n) = true
          · rw [if_pos hn] at h
            cases h
          · rw [if_neg hn] at h
            exact imageDone_length p h
      | arr l =>
          simp only [] at h
          rw [if_pos (show truthy (Json.arr l) = true from rfl)] at h
          cases h
      | obj fs =>
          simp only [] at h
          rw [if_pos (show truthy (Json.obj fs) = true from rfl)] at h
          cases h

/-- The base64 IMAGE string fits the bound when the value is
size-bounded. -/
theorem imageB64_length (first : Json) (p : Str)
    (hb : jsonBoundedB first = true)
    (h : imageB64 first = Except.ok (some p)) : p.length ≤ 500 := by
  unfold imageB64 at h
  cases hv : jGet first (str "b64_json") with
  | none =>
      rw [hv] at h
      exact imageRevised_length first p h
  | some v =>
      rw [hv] at h
      simp only [] at h
      by_cases ht : truthy v = true
      · rw [if_pos ht] at h
        have hp := Option.some.inj (Except.ok.inj h)
        rw [← hp]
        have hvb := jsonBounded_jGet first (str "b64_json") v hb hv
        have hlen := lengthPropStr_length v hvb
        have h1 : (str "[Image generated: base64 data, ").length = 31 := by decide
        have h2 : (str " chars]").length = 7 := by decide
        simp only [List.length_append, h1, h2]
        omega
      · rw [if_neg ht] at h
        exact imageRevised_length first p h

/-- The IMAGE previews fit the bound when the body is size-bounded. -/
theorem imageExtract_length (body : Json) (p : Str)
    (hb : jsonBoundedB body = true)
    (h : imageExtract body = Except.ok (some p)) : p.length ≤ 500 := by
  unfold imageExtract at h
  cases hd : jGet body (str "data") with
  | none => rw [hd] at h; cases h
  | some v =>
      rw [hd] at h
      have hvb := jsonBounded_jGet body (str "data") v hb hd
      cases v with
      | arr l =>
          cases l with
          | nil => cases h
          | cons first rest =>
              simp only [] at h
              have hfb : jsonBoundedB first = true := by
                rw [jsonBoundedB] at hvb
                simp only [Bool.and_eq_true] at hvb
                exact jsonBounded_mem _ _ hvb.2 (List.mem_cons_self first rest)
              cases hu : jGet first (str "url") with
              | none =>
                  rw [hu] at h
                  exact imageB64_length first p hfb h
              | some u =>
                  rw [hu] at h
                  cases u with
                  | jstr s =>
                      simp only [] at h
                      by_cases hs : s.isEmpty = true
                      · rw [if_pos hs] at h
                        exact imageB64_length first p hfb h
                      · rw [if_neg hs] at h
                        have hp := Option.some.inj (Except.ok.inj h)
                        rw [← hp]
                        have h1 : (str "[Image URL: ").length = 12 := by decide
                        have h2 : (str "...]").length = 4 := by decide
                        have h3 := List.length_take_le 100 s
                        simp only [List.length_append, h1, h2]
                        omega
                  | null =>
                      simp only [] at h
                      rw [if_neg (by decide : ¬truthy Json.null = true)] at h
                      exact imageB64_length first p hfb h
                  | bool b =>
                      simp only [] at h
                      cases b with
                      | false =>
                          rw [if_neg (by decide : ¬truthy (Json.bool false) = true)] at h
                          exact imageB64_length first p hfb h
                      | true =>
                          rw [if_pos (by decide : truthy (Json.bool true) = true)] at h
                          cases h
                  | num n =>
                      simp only [] at h
                      by_cases hn : truthy (Json.num n) = true
                      · rw [if_pos hn] at h; cases h
                      · rw [if_neg hn] at h
                        exact imageB64_length first p hfb h
                  | arr l2 =>
                      simp only [] at h
                      rw [if_pos (show truthy (Json.arr l2) = true from rfl)] at h
                      cases h
                  | obj fs2 =>
                      simp only [] at h
                      rw [if_pos (show truthy (Json.obj fs2) = true from rfl)] at h
                      cases h
      | null => cases h
      | bool b => cases h
      | num n => cases h
      | jstr s => cases h
      | obj fs => cases h

/-- Every alternative-key preview is a 500-truncation. -/
theorem altLoop_take (body : Json) : ∀ (ks : List Str) (p : Str),
    altLoop body ks = some p → ∃ s : Str, p = s.take 500 := by
  intro ks
  induction ks with
  | nil => intro p h; cases h
  | cons k rest ih =>
      intro p h
      unfold altLoop at h
      repeat' split at h
      all_goals first
        | exact ⟨_, (Option.some.inj h).symm⟩
        | exact ih p h

/-- Every last-resort preview is a 500-truncation or the untruncated
model-confirmation string. -/
theorem lastResort_shape (body : Json) (p : Str)
    (h : lastResortExtract body = some p) :
    (∃ s : Str, p = s.take 500) ∨ (∃ s : Str, p = modelOkStr s) := by
  unfold lastResortExtract at h
  cases hal : altLoop body lastResortKeys with
  | some r =>
      rw [hal] at h
      exact Or.inl (altLoop_take body lastResortKeys p (hal.trans h))
  | none =>
      rw [hal] at h
      simp only [] at h
      repeat' split at h
      all_goals first
        | exact Or.inr ⟨_, (Option.some.inj h).symm⟩
        | exact absurd h (by simp)

/-! ## No residual thinking sentinel after stripping -/

/-- Deleting an unclosed thinking block keeps a prefix of the text. -/
theorem replaceThinkOpen_isPrefix : ∀ s : Str, replaceThinkOpen s <+: s := by
  intro s
  induction s with
  | nil => exact List.nil_prefix
  | cons c rest ih =>
      unfold replaceThinkOpen
      by_cases hp : isPrefixCI thinkOpenTag (c :: rest) = true
      · rw [if_pos hp]
        exact List.nil_prefix
      · rw [if_neg hp]
        rcases ih with ⟨t, ht⟩
        exact ⟨t, by rw [List.cons_append, ht]⟩

/-- Substring containment agrees with list infixhood. -/
theorem jsIncludes_iff_infix : ∀ (s pat : Str), jsIncludes s pat = true ↔ pat <:+: s := by
  intro s pat
  induction s with
  | nil =>
      rw [jsIncludes]
      rw [List.isPrefixOf_iff_prefix]
      rw [List.prefix_nil, List.infix_nil]
  | cons c rest ih =>
      rw [jsIncludes, Bool.or_eq_true, List.isPrefixOf_iff_prefix, ih, List.infix_cons_iff]

/-- After deleting the unclosed block, the lowered text has no
occurrence of the opening sentinel. -/
theorem replaceThinkOpen_noTag : ∀ s : Str,
    jsIncludes (jsLower (replaceThinkOpen s)) thinkOpenTag = false := by
  intro s
  induction s with
  | nil => decide
  | cons c rest ih =>
      unfold replaceThinkOpen
      by_cases hp : isPrefixCI thinkOpenTag (c :: rest) = true
      · rw [if_pos hp]
        decide
      · rw [if_neg hp]
        show jsIncludes (jsLower (c :: replaceThinkOpen rest)) thinkOpenTag = false
        rw [jsLower, List.map_cons]
        rw [jsIncludes, Bool.or_eq_false_iff]
        refine ⟨?_, ?_⟩
        · by_contra hcontra
          rw [Bool.not_eq_false, List.isPrefixOf_iff_prefix] at hcontra
          have hpre : replaceThinkOpen rest <+: rest := replaceThinkOpen_isPrefix rest
          have hmap : (Char.toLower c :: List.map Char.toLower (replaceThinkOpen rest))
              <+: (Char.toLower c :: List.map Char.toLower rest) := by
            rcases List.IsPrefix.map Char.toLower hpre with ⟨t, ht⟩
            exact ⟨t, by rw [List.cons_append, ht]⟩
          have := hcontra.trans hmap
          have hP : isPrefixCI thinkOpenTag (c :: rest) = true := by
            rw [isPrefixCI, List.isPrefixOf_iff_prefix]
            simpa [jsLower] using this
          exact hp hP
        · exact ih

/-- Trimming keeps an infix of the text. -/
theorem trimStr_isInfix (t : Str) : trimStr t <:+: t := by
  unfold trimStr
  have h1 : t.dropWhile isJsWs <:+ t := List.dropWhile_suffix isJsWs
  have h2 : (t.dropWhile isJsWs).reverse.dropWhile isJsWs <:+ (t.dropWhile isJsWs).reverse :=
    List.dropWhile_suffix isJsWs
  have h3 : ((t.dropWhile isJsWs).reverse.dropWhile isJsWs).reverse <+: t.dropWhile isJsWs := by
    have := List.reverse_prefix.mpr h2
    simpa using this
  exact (h3.isInfix).trans h1.isInfix

/-- Infixhood transfers absence of the sentinel. -/
theorem jsIncludes_false_of_infix (a b pat : Str)
    (hab : a <:+: b) (hb : jsIncludes b pat = false) : jsIncludes a pat = false := by
  by_contra hcontra
  rw [Bool.not_eq_false, jsIncludes_iff_infix] at hcontra
  rw [← Bool.not_eq_true, jsIncludes_iff_infix] at hb
  exact hb (hcontra.trans hab)

/-- Stripping either leaves the text unchanged (the all-thinking
fallback) or leaves no opening sentinel in the (lowered) result. -/
theorem stripThinkingBlocks_noResidual (t : Str) :
    stripThinkingBlocks t = t
      ∨ jsIncludes (jsLower (stripThinkingBlocks t)) thinkOpenTag = false := by
  unfold stripThinkingBlocks
  by_cases he : (trimStr (replaceThinkOpen (trimStr (replaceThinkClosed t)))).isEmpty = true
  · rw [if_pos he]
    exact Or.inl rfl
  · rw [if_neg he]
    refine Or.inr ?_
    have h1 : trimStr (replaceThinkOpen (trimStr (replaceThinkClosed t)))
        <:+: replaceThinkOpen (trimStr (replaceThinkClosed t)) := trimStr_isInfix _
    have h2 := replaceThinkOpen_noTag (trimStr (replaceThinkClosed t))
    exact jsIncludes_false_of_infix _ _ _ (List.IsInfix.map Char.toLower h1) h2

/-- Claim C9 amended: for a size-bounded upstream body (JavaScript
strings and arrays are far shorter than 10^15), every preview returned
by extractResponseContent is at most 500 characters long unless it is
the untruncated last-resort string `[response OK, model: <m>]`; and
stripThinkingBlocks, which every all-text field passes through before
truncation, leaves no `<think>` sentinel in its output except when
stripping would erase everything, in which case it returns the
original text. -/
theorem extractPreviewBound (body : Json) (ep : EndpointType) (p : Str)
    (hb : jsonBoundedB body = true)
    (h : extractResponseContent body ep = some p) :
    (p.length ≤ 500 ∨ ∃ s : Str, p = modelOkStr s) ∧
    (∀ t : Str, stripThinkingBlocks t = t
      ∨ jsIncludes (jsLower (stripThinkingBlocks t)) thinkOpenTag = false) := by
  refine ⟨?_, fun t => stripThinkingBlocks_noResidual t⟩
  have hlast : lastResortExtract body = some p → p.length ≤ 500 ∨ ∃ s : Str, p = modelOkStr s := by
    intro hl
    rcases lastResort_shape body p hl with ⟨s, hs⟩ | hmodel
    · exact Or.inl (hs ▸ List.length_take_le 500 s)
    · exact Or.inr hmodel
  cases ep with
  | CHAT =>
      simp only [extractResponseContent, primaryExtract] at h
      cases hce : chatExtract body with
      | some s0 =>
          rw [hce] at h
          rcases chatExtract_take body s0 hce with ⟨s, hs⟩
          have hp := Option.some.inj h
          exact Or.inl (hp ▸ hs ▸ List.length_take_le 500 s)
      | none => rw [hce] at h; exact hlast h
  | CLAUDE =>
      simp only [extractResponseContent, primaryExtract] at h
      cases hce : claudeExtract body with
      | some s0 =>
          rw [hce] at h
          rcases claudeExtract_take body s0 hce with ⟨s, hs⟩
          have hp := Option.some.inj h
          exact Or.inl (hp ▸ hs ▸ List.length_take_le 500 s)
      | none => rw [hce] at h; exact hlast h
  | GEMINI =>
      simp only [extractResponseContent, primaryExtract] at h
      cases hce : geminiExtract body with
      | some s0 =>
          rw [hce] at h
          rcases geminiExtract_take body s0 hce with ⟨s, hs⟩
          have hp := Option.some.inj h
          exact Or.inl (hp ▸ hs ▸ List.length_take_le 500 s)
      | none => rw [hce] at h; exact hlast h
  | CODEX =>
      simp only [extractResponseContent, primaryExtract] at h
      cases hce : codexExtract body with
      | some s0 =>
          rw [hce] at h
          rcases codexExtract_take body s0 hce with ⟨s, hs⟩
          have hp := Option.some.inj h
          exact Or.inl (hp ▸ hs ▸ List.length_take_le 500 s)
      | none => rw [hce] at h; exact hlast h
  | IMAGE =>
      simp only [extractResponseContent, primaryExtract] at h
      cases hie : imageExtract body with
      | error e => rw [hie] at h; exact hlast h
      | ok o =>
          cases o with
          | some s0 =>
              rw [hie] at h
              have hp := Option.some.inj h
              exact Or.inl (hp ▸ imageExtract_length body s0 hb hie)
          | none => rw [hie] at h; exact hlast h

/-- A body whose only usable field is a 500-character model name. -/
def longModelBody : Json := Json.obj [(str "model", Json.jstr (List.replicate 500 'a'))]

/-- Counterexample to claim C9 as stated: the last-resort path renders
`[response OK, model: <m>]` without truncation, and a 500-character
model name makes the preview 522 characters long. -/
theorem extractPreviewOverflow :
    extractResponseContent longModelBody EndpointType.CHAT
      = some (modelOkStr (List.replicate 500 'a')) ∧
    (modelOkStr (List.replicate 500 'a')).length = 522 ∧ ¬(522 ≤ 500) := by
  refine ⟨rfl, by decide, by omega⟩

/-- Witness for C9 amended: a refusal-only CHAT body produces the
short preview "no". -/
theorem extractPreviewBound_check :
    (str "no").length ≤ 500 ∨ ∃ s : Str, str "no" = modelOkStr s :=
  (extractPreviewBound
    (Json.obj [(str "choices", Json.arr [Json.obj [(str "message",
      Json.obj [(str "refusal", Json.jstr (str "no"))])]])])
    EndpointType.CHAT (str "no") (by decide) rfl).1
